import Mathlib

/-!
# Entity state commands: snapshot capture, restore and cache consistency

A shallow embedding of
`dev/Code/Framework/AzToolsFramework/AzToolsFramework/Commands/EntityStateCommand.cpp`.

The functions of that file (`LoadEntity`, `EntityStateCommand::Capture`,
`EntityStateCommand::RestoreEntity`, the `Undo`/`Redo` of the three commands and the
two `Capture` overrides) are translated statement by statement.  Everything they call
lives outside that file: the component application (entity registry), the entity
contexts and slices, the selection service, the object stream and the pre-emptive undo
cache.  Those collaborators are given as explicit state (`World`), as parameters
(`Env`), or as small definitions whose doc comment says that they are modelled from the
specification.

A failed `AZ_Assert` is fatal: the operation stops there and the outcome carries the
assertion that failed together with the world as it was at that point.
-/

namespace AzToolsFramework

/-! ## Data model -/

abbrev EntityId := Nat
abbrev EntityContextId := Nat
abbrev AssetId := Nat

/-- The contents of an `AZStd::vector<AZ::u8>`; the byte values are never inspected. -/
abbrev Bytes := List Nat

/-- The lifecycle states of `AZ::Entity` that the command records and compares. -/
inductive State where
  | ES_CONSTRUCTED
  | ES_INIT
  | ES_ACTIVE
  deriving DecidableEq, Repr

/-- Position of a lifecycle state in the order constructed < initialized < active. -/
def State.rank : State → Nat
  | .ES_CONSTRUCTED => 0
  | .ES_INIT => 1
  | .ES_ACTIVE => 2

/-- The later of two lifecycle states. -/
def State.later (r s : State) : State :=
  if r.rank ≤ s.rank then s else r

/-- An entity: its identity, its lifecycle state, and its component data (what a
snapshot captures). -/
structure Entity where
  id : EntityId
  state : State
  components : List Nat
  deriving DecidableEq, Repr

/-- The slice restore info `AZ::SliceComponent::EntityRestoreInfo`.  The command holds
an `Option` of it: `none` is the default-constructed value, which converts to `false`. -/
structure EntityRestoreInfo where
  assetId : AssetId
  instanceId : Nat
  deriving DecidableEq, Repr

/-- What one call of `AZ::ObjectStream::LoadBlocking` does with a buffer: the value it
returns, and the root object it hands to the class-ready callback.  `root = none`: the
callback is not invoked; `root = some none`: it is invoked with an object that does not
cast to `AZ::Entity`; `root = some (some e)`: it is invoked with the entity `e`. -/
structure LoadResult where
  success : Bool
  root : Option (Option Entity)
  deriving DecidableEq, Repr

/-- The serialization engine and the two singletons the commands look up.  All of it is
code outside `EntityStateCommand.cpp` and is taken as a parameter.

* `serializeContext`: `GetSerializeContext` answers with a context;
* `undoCache`: `PreemptiveUndoCache::Get()` is not null;
* `encode`: the bytes the object stream writes for an entity.  A snapshot holds the
  identity and the component data; the lifecycle state is not part of it (the command
  records it separately, in `m_entityState`);
* `writeClass`, `finalize`: the values `ObjectStream::WriteClass` and
  `ObjectStream::Finalize` return for that entity;
* `loadBlocking`: see `LoadResult`;
* `contextState`: the lifecycle state in which an entity context leaves an entity that
  is added to it in the given state.  `RestoreEntity` reads the state of the entity
  again after `AddEntity`, so the context is free to have initialized or activated
  it. -/
structure Env where
  serializeContext : Bool
  undoCache : Bool
  encode : EntityId → List Nat → Bytes
  writeClass : Entity → Bool
  finalize : Entity → Bool
  loadBlocking : Bytes → LoadResult
  contextState : EntityContextId → State → State

/-- A fresh serialization of an entity. -/
def Serialize (env : Env) (e : Entity) : Bytes :=
  env.encode e.id e.components

/-- The calls with an effect that the commands make on their collaborators, in order. -/
inductive Call where
  | FindAsset (assetId : AssetId)
  | DeleteEntity (id : EntityId)
  | LoadBlocking (buffer : Bytes)
  | RestoreSliceEntity (entity : Entity) (info : EntityRestoreInfo)
  | AddEntity (contextId : EntityContextId) (entity : Entity)
  | Init (id : EntityId)
  | Activate (id : EntityId)
  | UpdateCache (id : EntityId)
  | PurgeCache (id : EntityId)
  | SetSelectedEntities (ids : List EntityId)
  deriving DecidableEq, Repr

/-- The state of the collaborators.

* `entities`: the live entity registry (`FindEntity`);
* `owningContext`: `GetOwningContextId`, `none` for the null context id;
* `owningSlice`: whether `GetOwningSlice` answers with a slice instance;
* `rootSlice`: the editor root slice, when there is one, as its `GetEntityRestoreInfo`;
* `selected`: the selection list;
* `cache`: the entries of the pre-emptive undo cache;
* `calls`: the effectful calls made so far. -/
structure World where
  entities : EntityId → Option Entity
  owningContext : EntityId → Option EntityContextId
  owningSlice : EntityId → Bool
  rootSlice : Option (EntityId → Option EntityRestoreInfo)
  selected : List EntityId
  cache : EntityId → Option Bytes
  calls : List Call

/-- The assertions of `EntityStateCommand.cpp`, and the dereference of a missing cache
instance. -/
inductive Assert where
  | noUndoCache
  | undoCapturedTwice
  | noSerializeContext
  | emptyUndoState
  | writeClassFailed
  | finalizeFailed
  | noRootSlice
  | undoDataEmpty
  | couldNotCast
  | loadFailed
  | noEntity
  deriving DecidableEq, Repr

/-- How an operation ends: it returns (`done`), or an assertion stops it (`fatal`). -/
inductive Outcome (α : Type) where
  | done (val : α) (world : World)
  | fatal (failure : Assert) (world : World)

/-- The world an operation leaves. -/
def Outcome.world {α : Type} : Outcome α → World
  | .done _ w => w
  | .fatal _ w => w

/-- The value an operation returns, if it returns. -/
def Outcome.val? {α : Type} : Outcome α → Option α
  | .done a _ => some a
  | .fatal _ _ => none

/-- The assertion that stopped an operation, if one did. -/
def Outcome.failure? {α : Type} : Outcome α → Option Assert
  | .done _ _ => none
  | .fatal a _ => some a

/-- One entry of a keyed table replaced. -/
def setAt {α : Type} (f : EntityId → α) (k : EntityId) (v : α) : EntityId → α :=
  fun i => if i = k then v else f i

/-! ## Collaborators -/

/-- Modelled from the spec: the entity registry (`ComponentApplicationBus::FindEntity`) is
not in the source file; section 6 gives `FindByIdentity(id) -> entity-or-null`. -/
def FindEntity (w : World) (id : EntityId) : Option Entity :=
  w.entities id

/-- Modelled from the spec: `ComponentApplicationBus::DeleteEntity` is not in the source
file; section 6 gives `DestroyByIdentity(id)`: whatever entity holds the identity is
destroyed, so no context and no slice owns it afterwards. -/
def DeleteEntity (id : EntityId) (w : World) : World :=
  { w with
    entities := setAt w.entities id none
    owningContext := setAt w.owningContext id none
    owningSlice := setAt w.owningSlice id false
    calls := w.calls ++ [Call.DeleteEntity id] }

/-- Modelled from the spec: `PreemptiveUndoCache::Retrieve` is not in the source file;
section 4.1: returns the cached snapshot for the identity, or an empty result if absent,
and never serializes. -/
def Retrieve (w : World) (id : EntityId) : Bytes :=
  (w.cache id).getD []

/-- Modelled from the spec: `PreemptiveUndoCache::UpdateCache` is not in the source file;
section 4.1: forces a fresh serialization of the live entity currently registered under
the identity and stores it, overwriting any prior entry.  With no live entity under the
identity there is nothing to serialize and the entries stay as they are. -/
def UpdateCache (env : Env) (id : EntityId) (w : World) : World :=
  match w.entities id with
  | some e =>
    { w with
      cache := setAt w.cache id (some (Serialize env e))
      calls := w.calls ++ [Call.UpdateCache id] }
  | none => { w with calls := w.calls ++ [Call.UpdateCache id] }

/-- Modelled from the spec: `PreemptiveUndoCache::PurgeCache` is not in the source file;
section 4.1: removes any cached entry for the identity. -/
def PurgeCache (id : EntityId) (w : World) : World :=
  { w with
    cache := setAt w.cache id none
    calls := w.calls ++ [Call.PurgeCache id] }

/-- Modelled from the spec: the selection service is not in the source file; section 6
gives `GetSelected() -> ordered list of identity`. -/
def GetSelectedEntities (w : World) : List EntityId :=
  w.selected

/-- Modelled from the spec: the selection service is not in the source file; section 6
gives `IsSelected(id) -> bool`. -/
def IsSelected (w : World) (id : EntityId) : Bool :=
  w.selected.contains id

/-- Modelled from the spec: the selection service is not in the source file; section 6
gives `SetSelected(list)`: the list becomes the global selection. -/
def SetSelectedEntities (ids : List EntityId) (w : World) : World :=
  { w with
    selected := ids
    calls := w.calls ++ [Call.SetSelectedEntities ids] }

/-- Modelled from the spec: `EntityIdContextQueryBus::GetOwningContextId` is not in the
source file; section 6 gives `GetOwningContext(id) -> context-id`. -/
def GetOwningContextId (w : World) (id : EntityId) : Option EntityContextId :=
  w.owningContext id

/-- Modelled from the spec: `EntityIdContextQueryBus::GetOwningSlice` is not in the source
file; section 6 gives `GetOwningSliceInstance(id) -> slice-instance-or-none`; the command
only tests the answer. -/
def GetOwningSlice (w : World) (id : EntityId) : Bool :=
  w.owningSlice id

/-- Modelled from the spec: `EditorEntityContextRequestBus::GetEditorRootSlice` and
`SliceComponent::GetEntityRestoreInfo` are not in the source file; section 6 gives
`ExtractRestoreInfo(id) -> slice-restore-info`. -/
def GetEditorRootSlice (w : World) : Option (EntityId → Option EntityRestoreInfo) :=
  w.rootSlice

/-- Modelled from the spec: `AssetManager::FindAsset` is not in the source file; section 6
gives `Pin(asset-id) -> asset-handle`.  Holding the handle changes nothing the commands
read; the call is recorded. -/
def FindAsset (assetId : AssetId) (w : World) : World :=
  { w with calls := w.calls ++ [Call.FindAsset assetId] }

/-- Modelled from the spec: `EntityContextRequestBus::AddEntity` is not in the source
file; section 6 gives `RegisterWithContext(context-id, entity)`: the context owns the
entity afterwards, and leaves it in the lifecycle state `Env.contextState` gives; its
identity and component data are as before.  The registry sees the same object. -/
def AddEntity (env : Env) (contextId : EntityContextId) (p : Entity × World) :
    Entity × World :=
  let e : Entity := { p.1 with state := env.contextState contextId p.1.state }
  (e, { p.2 with
        entities := setAt p.2.entities e.id (some e)
        owningContext := setAt p.2.owningContext e.id (some contextId)
        calls := p.2.calls ++ [Call.AddEntity contextId p.1] })

/-- Modelled from the spec: `EditorEntityContextRequestBus::RestoreSliceEntity` is not in
the source file; section 6 gives `ReattachToSlice(entity, restore-info)`: the entity is
part of its owning slice instance afterwards, and the root slice answers for it with that
restore info. -/
def RestoreSliceEntity (entity : Entity) (info : EntityRestoreInfo) (w : World) : World :=
  { w with
    owningSlice := setAt w.owningSlice entity.id true
    rootSlice := w.rootSlice.map (fun m => setAt m entity.id (some info))
    calls := w.calls ++ [Call.RestoreSliceEntity entity info] }

/-- Modelled from the spec: `AZ::Entity::Init` is not in the source file; section 6 gives
`InitializeFromConstructed`: the entity is initialized afterwards, its identity and
component data are as before.  The registry sees the same object. -/
def Entity.Init (p : Entity × World) : Entity × World :=
  let e : Entity := { p.1 with state := State.ES_INIT }
  (e, { p.2 with
        entities := setAt p.2.entities e.id (some e)
        calls := p.2.calls ++ [Call.Init e.id] })

/-- Modelled from the spec: `AZ::Entity::Activate` is not in the source file; section 6
gives `ActivateFromInitialized`: the entity is active afterwards, its identity and
component data are as before.  The registry sees the same object. -/
def Entity.Activate (p : Entity × World) : Entity × World :=
  let e : Entity := { p.1 with state := State.ES_ACTIVE }
  (e, { p.2 with
        entities := setAt p.2.entities e.id (some e)
        calls := p.2.calls ++ [Call.Activate e.id] })

/-- Modelled from the spec: `AZ::ObjectStream::LoadBlocking` is not in the source file;
section 6 gives `Deserialize(bytes, options) -> entity-or-null`.  Section 6 gives the
registry no registration call, and section 4.2 (step 7) takes the cache update from the
"now-live entity" on every branch, also for a free entity with neither slice nor context:
an entity the stream creates is findable under its own identity from then on. -/
def LoadBlocking (env : Env) (buffer : Bytes) (w : World) : World :=
  match (env.loadBlocking buffer).root with
  | some (some e) =>
    { w with
      entities := setAt w.entities e.id (some e)
      calls := w.calls ++ [Call.LoadBlocking buffer] }
  | _ => { w with calls := w.calls ++ [Call.LoadBlocking buffer] }

/-! ## The commands -/

/-- The members of `EntityStateCommand`. -/
structure EntityStateCommand where
  m_entityID : EntityId
  m_entityContextId : Option EntityContextId
  m_entityState : State
  m_isSelected : Bool
  m_sliceRestoreInfo : Option EntityRestoreInfo
  m_undoState : Bytes
  m_redoState : Bytes
  deriving DecidableEq, Repr

/-- The constructor `EntityStateCommand::EntityStateCommand` (lines 45-52): identity 0,
null context id, state 0, not selected, and the default-constructed members. -/
def EntityStateCommand.new : EntityStateCommand :=
  { m_entityID := 0
    m_entityContextId := none
    m_entityState := State.ES_CONSTRUCTED
    m_isSelected := false
    m_sliceRestoreInfo := none
    m_undoState := []
    m_redoState := [] }

/-- The function `LoadEntity` (lines 37-42): the loaded object cast to an entity, stored
through `destPtr`; the assertion on it is made by the caller of this definition. -/
def LoadEntity (pClassPtr : Option Entity) : Option Entity :=
  pClassPtr

/-- Lines 77-86 of `Capture`: the undo side. -/
def Capture.undoSide (env : Env) (cmd : EntityStateCommand) (w : World) :
    Outcome EntityStateCommand :=
  let cmd1 := { cmd with m_undoState := Retrieve w cmd.m_entityID }
  if cmd1.m_undoState.isEmpty then
    let w1 := UpdateCache env cmd1.m_entityID w
    let cmd2 := { cmd1 with m_undoState := Retrieve w1 cmd1.m_entityID }
    if cmd2.m_undoState.isEmpty then Outcome.fatal Assert.emptyUndoState w1
    else Outcome.done cmd2 w1
  else
    if cmd1.m_undoState.isEmpty then Outcome.fatal Assert.emptyUndoState w
    else Outcome.done cmd1 w

/-- Lines 87-100 of `Capture`: the redo side, a serialization of the source entity
itself into `m_redoState`. -/
def Capture.redoSide (env : Env) (cmd : EntityStateCommand) (pSourceEntity : Entity)
    (w : World) : Outcome EntityStateCommand :=
  let cmd1 := { cmd with m_redoState := Serialize env pSourceEntity }
  if !env.writeClass pSourceEntity then Outcome.fatal Assert.writeClassFailed w
  else if !env.finalize pSourceEntity then Outcome.fatal Assert.finalizeFailed w
  else Outcome.done cmd1 w

/-- Lines 102-111 of `Capture`: the slice restore info of a slice-owned entity. -/
def Capture.sliceInfo (cmd : EntityStateCommand) (w : World) : Outcome EntityStateCommand :=
  if GetOwningSlice w cmd.m_entityID then
    match GetEditorRootSlice w with
    | none => Outcome.fatal Assert.noRootSlice w
    | some rootSlice =>
      Outcome.done { cmd with m_sliceRestoreInfo := rootSlice cmd.m_entityID } w
  else Outcome.done cmd w

/-- The method `EntityStateCommand::Capture` (lines 57-112).  The source entity is a
value, so the pointer is never null. -/
def EntityStateCommand.Capture (env : Env) (cmd : EntityStateCommand)
    (pSourceEntity : Entity) (captureUndo : Bool) (w : World) : Outcome EntityStateCommand :=
  let cmd1 := { cmd with
    m_entityID := pSourceEntity.id
    m_entityContextId := GetOwningContextId w pSourceEntity.id
    m_isSelected := IsSelected w pSourceEntity.id
    m_sliceRestoreInfo := none }
  if !env.undoCache then Outcome.fatal Assert.noUndoCache w
  else if captureUndo && !cmd1.m_undoState.isEmpty then
    Outcome.fatal Assert.undoCapturedTwice w
  else if !env.serializeContext then Outcome.fatal Assert.noSerializeContext w
  else
    let cmd2 := { cmd1 with m_entityState := pSourceEntity.state }
    match (if captureUndo then Capture.undoSide env cmd2 w
           else Capture.redoSide env cmd2 pSourceEntity w) with
    | Outcome.fatal a w1 => Outcome.fatal a w1
    | Outcome.done cmd3 w1 => Capture.sliceInfo cmd3 w1

/-- Lines 163-169 of `RestoreEntity`. -/
def RestoreEntity.initStep (cmd : EntityStateCommand) (p : Entity × World) : Entity × World :=
  if cmd.m_entityState = State.ES_INIT ∨ cmd.m_entityState = State.ES_ACTIVE then
    if p.1.state = State.ES_CONSTRUCTED then Entity.Init p else p
  else p

/-- Lines 170-176 of `RestoreEntity`. -/
def RestoreEntity.activateStep (cmd : EntityStateCommand) (p : Entity × World) :
    Entity × World :=
  if cmd.m_entityState = State.ES_ACTIVE then
    if p.1.state = State.ES_INIT then Entity.Activate p else p
  else p

/-- Lines 152-177 of `RestoreEntity`: the entity is handed to the slice, or added to
the recorded context and taken through `Init` and `Activate`. -/
def RestoreEntity.reintegrate (env : Env) (cmd : EntityStateCommand) (entity : Entity)
    (w : World) : Entity × World :=
  match cmd.m_sliceRestoreInfo with
  | some info => (entity, RestoreSliceEntity entity info w)
  | none =>
    let p1 :=
      match cmd.m_entityContextId with
      | some contextId => AddEntity env contextId (entity, w)
      | none => (entity, w)
    RestoreEntity.activateStep cmd (RestoreEntity.initStep cmd p1)

/-- Lines 126-132 of `RestoreEntity`: a reference to the slice asset is taken when the
command holds slice restore info. -/
def RestoreEntity.pinAsset (cmd : EntityStateCommand) (w : World) : World :=
  match cmd.m_sliceRestoreInfo with
  | some info => FindAsset info.assetId w
  | none => w

/-- Lines 146-187 of `RestoreEntity`: the two assertions after the load, the
re-integration, the cache update and the selection.  The assertion on line 148 is fatal,
so the test `if (entity)` on line 150 succeeds whenever it is reached. -/
def RestoreEntity.finish (env : Env) (cmd : EntityStateCommand)
    (selectedEntities : List EntityId) (success : Bool) (entity : Option Entity)
    (w : World) : Outcome Unit :=
  if !success then Outcome.fatal Assert.loadFailed w
  else
    match entity with
    | none => Outcome.fatal Assert.noEntity w
    | some e =>
      let p := RestoreEntity.reintegrate env cmd e w
      if !env.undoCache then Outcome.fatal Assert.noUndoCache p.2
      else
        let w1 := UpdateCache env cmd.m_entityID p.2
        let selectedEntities1 :=
          if cmd.m_isSelected then selectedEntities ++ [cmd.m_entityID] else selectedEntities
        Outcome.done () (SetSelectedEntities selectedEntities1 w1)

/-- The method `EntityStateCommand::RestoreEntity` (lines 114-188).  The buffer is a
list, so the assertions on lines 118 and 119 are one test.  The local `entity` first
holds what `FindEntity` answers (line 140) and is overwritten only when the load invokes
`LoadEntity`. -/
def EntityStateCommand.RestoreEntity (env : Env) (cmd : EntityStateCommand)
    (buffer : Bytes) (w : World) : Outcome Unit :=
  if buffer.isEmpty then Outcome.fatal Assert.undoDataEmpty w
  else if !env.serializeContext then Outcome.fatal Assert.noSerializeContext w
  else
    let w1 := RestoreEntity.pinAsset cmd w
    let selectedEntities := GetSelectedEntities w1
    let entity := FindEntity w1 cmd.m_entityID
    let w2 := DeleteEntity cmd.m_entityID w1
    let w3 := LoadBlocking env buffer w2
    match (env.loadBlocking buffer).root with
    | some pClassPtr =>
      match LoadEntity pClassPtr with
      | none => Outcome.fatal Assert.couldNotCast w3
      | some e =>
        RestoreEntity.finish env cmd selectedEntities (env.loadBlocking buffer).success
          (some e) w3
    | none =>
      RestoreEntity.finish env cmd selectedEntities (env.loadBlocking buffer).success
        entity w3

/-- The method `EntityStateCommand::Undo` (lines 190-193). -/
def EntityStateCommand.Undo (env : Env) (cmd : EntityStateCommand) (w : World) :
    Outcome Unit :=
  EntityStateCommand.RestoreEntity env cmd cmd.m_undoState w

/-- The method `EntityStateCommand::Redo` (lines 195-198). -/
def EntityStateCommand.Redo (env : Env) (cmd : EntityStateCommand) (w : World) :
    Outcome Unit :=
  EntityStateCommand.RestoreEntity env cmd cmd.m_redoState w

/-- The method `EntityDeleteCommand::Capture` (lines 205-209).  The cache instance is
dereferenced without a test; a missing instance stops the call. -/
def EntityDeleteCommand.Capture (env : Env) (cmd : EntityStateCommand)
    (pSourceEntity : Entity) (w : World) : Outcome EntityStateCommand :=
  if !env.undoCache then Outcome.fatal Assert.noUndoCache w
  else
    EntityStateCommand.Capture env cmd pSourceEntity true
      (UpdateCache env pSourceEntity.id w)

/-- The method `EntityDeleteCommand::Undo` (lines 211-214). -/
def EntityDeleteCommand.Undo (env : Env) (cmd : EntityStateCommand) (w : World) :
    Outcome Unit :=
  EntityStateCommand.RestoreEntity env cmd cmd.m_undoState w

/-- The method `EntityDeleteCommand::Redo` (lines 216-220). -/
def EntityDeleteCommand.Redo (env : Env) (cmd : EntityStateCommand) (w : World) :
    Outcome Unit :=
  let w1 := DeleteEntity cmd.m_entityID w
  if !env.undoCache then Outcome.fatal Assert.noUndoCache w1
  else Outcome.done () (PurgeCache cmd.m_entityID w1)

/-- The method `EntityCreateCommand::Capture` (lines 227-231). -/
def EntityCreateCommand.Capture (env : Env) (cmd : EntityStateCommand)
    (pSourceEntity : Entity) (w : World) : Outcome EntityStateCommand :=
  match EntityStateCommand.Capture env cmd pSourceEntity false w with
  | Outcome.fatal a w1 => Outcome.fatal a w1
  | Outcome.done cmd1 w1 => Outcome.done { cmd1 with m_isSelected := true } w1

/-- The method `EntityCreateCommand::Undo` (lines 233-237). -/
def EntityCreateCommand.Undo (env : Env) (cmd : EntityStateCommand) (w : World) :
    Outcome Unit :=
  let w1 := DeleteEntity cmd.m_entityID w
  if !env.undoCache then Outcome.fatal Assert.noUndoCache w1
  else Outcome.done () (PurgeCache cmd.m_entityID w1)

/-- The method `EntityCreateCommand::Redo` (lines 239-242). -/
def EntityCreateCommand.Redo (env : Env) (cmd : EntityStateCommand) (w : World) :
    Outcome Unit :=
  EntityStateCommand.RestoreEntity env cmd cmd.m_redoState w

/-! ## A small concrete engine and world, for closed examples -/

/-- An engine for closed examples.  It writes the byte 1, the identity and the component
data, and reads such a buffer back as a constructed entity.  A buffer that starts with 0
is a well-formed stream without a root object: it loads without error and the callback
is not invoked.  A buffer that starts with 2 holds a root object that is not an entity.
Any other buffer fails to load. -/
def demoEnv : Env :=
  { serializeContext := true
    undoCache := true
    encode := fun id cs => 1 :: id :: cs
    writeClass := fun _ => true
    finalize := fun _ => true
    contextState := fun _ s => s
    loadBlocking := fun b =>
      match b with
      | 0 :: _ => { success := true, root := none }
      | 1 :: id :: cs => { success := true, root := some (some ⟨id, State.ES_CONSTRUCTED, cs⟩) }
      | 2 :: _ => { success := true, root := some none }
      | _ => { success := false, root := none } }

/-- The world with no entity, no selection, no cache entry and a root slice. -/
def emptyWorld : World :=
  { entities := fun _ => none
    owningContext := fun _ => none
    owningSlice := fun _ => false
    rootSlice := some (fun _ => none)
    selected := []
    cache := fun _ => none
    calls := [] }

/-- A world in which the entity `e` is live, owned by the context `ctx`. -/
def worldWith (e : Entity) (ctx : Option EntityContextId) (sel : List EntityId) : World :=
  { emptyWorld with
    entities := setAt emptyWorld.entities e.id (some e)
    owningContext := setAt emptyWorld.owningContext e.id ctx
    selected := sel }

/-- An active entity with identity 1 and two components. -/
def demoEntity : Entity :=
  ⟨1, State.ES_ACTIVE, [7, 8]⟩

/-- The entity 1 live in the context 5 and selected. -/
def demoWorld : World :=
  worldWith demoEntity (some 5) [1]

/-- The command as `Capture(demoEntity, false)` leaves it in `demoWorld`. -/
def demoCommand : EntityStateCommand :=
  { m_entityID := 1
    m_entityContextId := some 5
    m_entityState := State.ES_ACTIVE
    m_isSelected := true
    m_sliceRestoreInfo := none
    m_undoState := []
    m_redoState := [1, 1, 7, 8] }

/-- The world after `demoCommand` is redone in the empty world. -/
def demoRestored : World :=
  (EntityStateCommand.RestoreEntity demoEnv demoCommand [1, 1, 7, 8] emptyWorld).world

/-- The command as `EntityDeleteCommand::Capture(demoEntity)` leaves it in `demoWorld`. -/
def demoDeleteCommand : EntityStateCommand :=
  { m_entityID := 1
    m_entityContextId := some 5
    m_entityState := State.ES_ACTIVE
    m_isSelected := true
    m_sliceRestoreInfo := none
    m_undoState := [1, 1, 7, 8]
    m_redoState := [] }

/-- The world after `demoDeleteCommand` is undone in the empty world. -/
def demoUndeleted : World :=
  (EntityDeleteCommand.Undo demoEnv demoDeleteCommand emptyWorld).world

/-- A command that holds slice restore info, otherwise as `demoCommand`. -/
def demoSliceCommand : EntityStateCommand :=
  { demoCommand with
    m_entityContextId := none
    m_sliceRestoreInfo := some ⟨3, 4⟩ }

/-- The world after `demoSliceCommand` is redone in the empty world. -/
def demoSliceRestored : World :=
  (EntityStateCommand.RestoreEntity demoEnv demoSliceCommand [1, 1, 7, 8] emptyWorld).world

/-- The entity 1 before an edit, after it, and after a later edit that no command
captured. -/
def editedEntity (value : Nat) : Entity :=
  ⟨1, State.ES_ACTIVE, [value]⟩

/-- A world in which the entity 1 holds the given value, in the context 5, unselected. -/
def editedWorld (value : Nat) : World :=
  worldWith (editedEntity value) (some 5) []

/-- The modify command of the edit from 7 to 8: the undo side captured from the cache
before the edit, the redo side captured after it. -/
def modifyCommand : EntityStateCommand :=
  { m_entityID := 1
    m_entityContextId := some 5
    m_entityState := State.ES_ACTIVE
    m_isSelected := false
    m_sliceRestoreInfo := none
    m_undoState := [1, 1, 7]
    m_redoState := [1, 1, 8] }

/-- The world after `modifyCommand` is undone where the entity 1 holds the value 9. -/
def modifyUndone : World :=
  (EntityStateCommand.Undo demoEnv modifyCommand (editedWorld 9)).world

/-- The world after `modifyCommand` is then redone. -/
def modifyRedone : World :=
  (EntityStateCommand.Redo demoEnv modifyCommand modifyUndone).world

/-- A world in which the entity 1 is live, constructed and in the context 5. -/
def staleWorld : World :=
  worldWith ⟨1, State.ES_CONSTRUCTED, [7, 8]⟩ (some 5) []

/-- The engine of the examples with contexts that activate every entity added to them. -/
def activatingEnv : Env :=
  { demoEnv with contextState := fun _ _ => State.ES_ACTIVE }

/-! ## Quantities the statements speak about -/

/-- Deserialize undoes Serialize: loading a fresh serialization of an entity succeeds and
hands over an entity with the same identity and the same component data. -/
def RoundTrips (env : Env) : Prop :=
  ∀ e : Entity, ∃ s : State,
    env.loadBlocking (Serialize env e) =
      { success := true, root := some (some ⟨e.id, s, e.components⟩) }

/-- The command after `Capture` has recorded identity, context, selection flag and
lifecycle state (lines 61-65 and 74) and before it captures a snapshot. -/
def Capture.recorded (cmd : EntityStateCommand) (pSourceEntity : Entity) (w : World) :
    EntityStateCommand :=
  { cmd with
    m_entityID := pSourceEntity.id
    m_entityContextId := GetOwningContextId w pSourceEntity.id
    m_isSelected := IsSelected w pSourceEntity.id
    m_sliceRestoreInfo := none
    m_entityState := pSourceEntity.state }

/-- Redo-side captures made one after the other on one command instance; `none` when one
of them is stopped by an assertion. -/
def captureRedoAll (env : Env) :
    EntityStateCommand → List (Entity × World) → Option EntityStateCommand
  | cmd, [] => some cmd
  | cmd, (e, w) :: rest =>
    match EntityStateCommand.Capture env cmd e false w with
    | Outcome.done cmd1 _ => captureRedoAll env cmd1 rest
    | Outcome.fatal _ _ => none


/-- The world in which `RestoreEntity` re-integrates the entity: the slice asset is
referenced, the entity under the identity is deleted and the buffer is loaded. -/
def RestoreEntity.loaded (env : Env) (cmd : EntityStateCommand) (buffer : Bytes)
    (w : World) : World :=
  LoadBlocking env buffer (DeleteEntity cmd.m_entityID (RestoreEntity.pinAsset cmd w))

/-- The value of the local `entity` after the load: the loaded entity when the callback
ran, and otherwise still what `FindEntity` answered before the deletion. -/
def RestoreEntity.entityAfterLoad (env : Env) (cmd : EntityStateCommand) (buffer : Bytes)
    (w : World) : Option Entity :=
  match (env.loadBlocking buffer).root with
  | some pClassPtr => LoadEntity pClassPtr
  | none => FindEntity w cmd.m_entityID

/-- The lifecycle state of the new entity after deserialization and context
registration, when lines 163-176 of `RestoreEntity` start. -/
def RestoreEntity.stateAfterAdd (env : Env) (cmd : EntityStateCommand) (e : Entity) :
    State :=
  match cmd.m_entityContextId with
  | some contextId => env.contextState contextId e.state
  | none => e.state

/-- The selection list `RestoreEntity` applies. -/
def RestoreEntity.selection (cmd : EntityStateCommand) (w : World) : List EntityId :=
  if cmd.m_isSelected then w.selected ++ [cmd.m_entityID] else w.selected

/-! ## Basic facts about the collaborators -/

@[simp]
theorem setAt_same {α : Type} (f : EntityId → α) (k : EntityId) (v : α) :
    setAt f k v k = v := by
  simp [setAt]

theorem setAt_other {α : Type} (f : EntityId → α) (k i : EntityId) (v : α) (h : i ≠ k) :
    setAt f k v i = f i := by
  simp [setAt, h]

@[simp]
theorem UpdateCache_entities (env : Env) (id : EntityId) (w : World) :
    (UpdateCache env id w).entities = w.entities := by
  unfold UpdateCache
  split <;> rfl

@[simp]
theorem UpdateCache_selected (env : Env) (id : EntityId) (w : World) :
    (UpdateCache env id w).selected = w.selected := by
  unfold UpdateCache
  split <;> rfl

@[simp]
theorem UpdateCache_calls (env : Env) (id : EntityId) (w : World) :
    (UpdateCache env id w).calls = w.calls ++ [Call.UpdateCache id] := by
  unfold UpdateCache
  split <;> rfl

/-- After `UpdateCache`, the entry of a live entity is its fresh serialization. -/
theorem UpdateCache_Retrieve (env : Env) (id : EntityId) (w : World) (e : Entity)
    (h : w.entities id = some e) :
    Retrieve (UpdateCache env id w) id = Serialize env e := by
  simp [UpdateCache, Retrieve, h]

@[simp]
theorem pinAsset_entities (cmd : EntityStateCommand) (w : World) :
    (RestoreEntity.pinAsset cmd w).entities = w.entities := by
  unfold RestoreEntity.pinAsset
  split <;> rfl

@[simp]
theorem pinAsset_selected (cmd : EntityStateCommand) (w : World) :
    (RestoreEntity.pinAsset cmd w).selected = w.selected := by
  unfold RestoreEntity.pinAsset
  split <;> rfl

@[simp]
theorem pinAsset_cache (cmd : EntityStateCommand) (w : World) :
    (RestoreEntity.pinAsset cmd w).cache = w.cache := by
  unfold RestoreEntity.pinAsset
  split <;> rfl

/-- What a completed `RestoreEntity` has done: every assertion held, the local `entity`
held some entity `e`, and the world is the loaded one after re-integration of `e`, the
cache update and the selection. -/
theorem RestoreEntity_done_inv (env : Env) (cmd : EntityStateCommand) (buffer : Bytes)
    (w w' : World)
    (h : EntityStateCommand.RestoreEntity env cmd buffer w = Outcome.done () w') :
    buffer ≠ [] ∧ env.serializeContext = true ∧ env.undoCache = true ∧
    (env.loadBlocking buffer).success = true ∧
    ∃ e, RestoreEntity.entityAfterLoad env cmd buffer w = some e ∧
      w' = SetSelectedEntities (RestoreEntity.selection cmd w)
        (UpdateCache env cmd.m_entityID
          (RestoreEntity.reintegrate env cmd e (RestoreEntity.loaded env cmd buffer w)).2) := by
  unfold EntityStateCommand.RestoreEntity at h
  by_cases hb : buffer = []
  · simp [hb] at h
  by_cases hsc : env.serializeContext = true
  swap
  · simp [hb, hsc] at h
  by_cases hok : (env.loadBlocking buffer).success = true
  swap
  · simp only [List.isEmpty_eq_true, hb, hsc] at h
    simp [RestoreEntity.finish, hok] at h
    split at h <;> try split at h
    all_goals simp at h
  by_cases huc : env.undoCache = true
  swap
  · simp only [List.isEmpty_eq_true, hb, hsc] at h
    simp [RestoreEntity.finish, hok, huc] at h
    split at h <;> try split at h
    all_goals simp at h
  refine ⟨hb, hsc, huc, hok, ?_⟩
  simp only [List.isEmpty_eq_true, hb, hsc] at h
  simp only [RestoreEntity.finish, hok, huc, GetSelectedEntities, FindEntity,
    pinAsset_entities, pinAsset_selected] at h
  simp only [RestoreEntity.entityAfterLoad, RestoreEntity.loaded, RestoreEntity.selection,
    FindEntity, LoadEntity]
  cases hr : (env.loadBlocking buffer).root with
  | none =>
    simp only [hr] at h
    cases hf : w.entities cmd.m_entityID with
    | none => simp [hf] at h
    | some e =>
      refine ⟨e, rfl, ?_⟩
      simp [hf] at h
      exact h.symm
  | some c =>
    simp only [hr, LoadEntity] at h
    cases c with
    | none => simp at h
    | some e =>
      refine ⟨e, rfl, ?_⟩
      simp at h
      exact h.symm

/-- The converse: when every assertion holds and the local `entity` holds `e` after the
load, `RestoreEntity` completes. -/
theorem RestoreEntity_done_of (env : Env) (cmd : EntityStateCommand) (buffer : Bytes)
    (w : World) (e : Entity)
    (hb : buffer ≠ []) (hsc : env.serializeContext = true) (huc : env.undoCache = true)
    (hok : (env.loadBlocking buffer).success = true)
    (he : RestoreEntity.entityAfterLoad env cmd buffer w = some e) :
    EntityStateCommand.RestoreEntity env cmd buffer w =
      Outcome.done () (SetSelectedEntities (RestoreEntity.selection cmd w)
        (UpdateCache env cmd.m_entityID
          (RestoreEntity.reintegrate env cmd e (RestoreEntity.loaded env cmd buffer w)).2)) := by
  unfold EntityStateCommand.RestoreEntity
  simp only [List.isEmpty_eq_true, hb, hsc, RestoreEntity.finish, hok, huc,
    GetSelectedEntities, FindEntity, pinAsset_entities, pinAsset_selected]
  simp only [RestoreEntity.entityAfterLoad, FindEntity, LoadEntity] at he
  cases hr : (env.loadBlocking buffer).root with
  | none =>
    simp only [hr] at he
    simp [he, RestoreEntity.loaded, RestoreEntity.selection]
  | some c =>
    simp only [hr] at he
    subst he
    simp [LoadEntity, RestoreEntity.loaded, RestoreEntity.selection]

theorem Serialize_congr (env : Env) (a b : Entity) (hid : a.id = b.id)
    (hc : a.components = b.components) : Serialize env a = Serialize env b := by
  simp [Serialize, hid, hc]

theorem initStep_fst (cmd : EntityStateCommand) (p : Entity × World) :
    (RestoreEntity.initStep cmd p).1.id = p.1.id ∧
    (RestoreEntity.initStep cmd p).1.components = p.1.components := by
  unfold RestoreEntity.initStep Entity.Init
  split_ifs <;> simp

theorem activateStep_fst (cmd : EntityStateCommand) (p : Entity × World) :
    (RestoreEntity.activateStep cmd p).1.id = p.1.id ∧
    (RestoreEntity.activateStep cmd p).1.components = p.1.components := by
  unfold RestoreEntity.activateStep Entity.Activate
  split_ifs <;> simp

theorem initStep_frame (cmd : EntityStateCommand) (p : Entity × World) :
    (RestoreEntity.initStep cmd p).2.cache = p.2.cache ∧
    (RestoreEntity.initStep cmd p).2.selected = p.2.selected := by
  unfold RestoreEntity.initStep Entity.Init
  split_ifs <;> simp

theorem activateStep_frame (cmd : EntityStateCommand) (p : Entity × World) :
    (RestoreEntity.activateStep cmd p).2.cache = p.2.cache ∧
    (RestoreEntity.activateStep cmd p).2.selected = p.2.selected := by
  unfold RestoreEntity.activateStep Entity.Activate
  split_ifs <;> simp

/-- The registry keeps seeing the entity that `Init` works on. -/
theorem initStep_sync (cmd : EntityStateCommand) (p : Entity × World)
    (h : p.2.entities p.1.id = some p.1) :
    (RestoreEntity.initStep cmd p).2.entities (RestoreEntity.initStep cmd p).1.id =
      some (RestoreEntity.initStep cmd p).1 := by
  unfold RestoreEntity.initStep Entity.Init
  split_ifs <;> simp [h]

/-- The registry keeps seeing the entity that `Activate` works on. -/
theorem activateStep_sync (cmd : EntityStateCommand) (p : Entity × World)
    (h : p.2.entities p.1.id = some p.1) :
    (RestoreEntity.activateStep cmd p).2.entities (RestoreEntity.activateStep cmd p).1.id =
      some (RestoreEntity.activateStep cmd p).1 := by
  unfold RestoreEntity.activateStep Entity.Activate
  split_ifs <;> simp [h]

/-- The entity and the world at the start of lines 163-176, on the plain branch. -/
theorem addStep_facts (env : Env) (cmd : EntityStateCommand) (e : Entity) (w : World) :
    (match cmd.m_entityContextId with
      | some contextId => AddEntity env contextId (e, w)
      | none => (e, w)).1 =
      { e with state := RestoreEntity.stateAfterAdd env cmd e } ∧
    (match cmd.m_entityContextId with
      | some contextId => AddEntity env contextId (e, w)
      | none => (e, w)).2.cache = w.cache ∧
    (match cmd.m_entityContextId with
      | some contextId => AddEntity env contextId (e, w)
      | none => (e, w)).2.selected = w.selected ∧
    (match cmd.m_entityContextId with
      | some contextId => AddEntity env contextId (e, w)
      | none => (e, w)).2.calls =
      w.calls ++
        (match cmd.m_entityContextId with
          | some contextId => [Call.AddEntity contextId e]
          | none => []) ∧
    (w.entities e.id = some e →
      (match cmd.m_entityContextId with
        | some contextId => AddEntity env contextId (e, w)
        | none => (e, w)).2.entities e.id =
        some { e with state := RestoreEntity.stateAfterAdd env cmd e }) := by
  cases hc : cmd.m_entityContextId <;>
    simp [AddEntity, RestoreEntity.stateAfterAdd, hc]

theorem reintegrate_fst (env : Env) (cmd : EntityStateCommand) (e : Entity) (w : World) :
    (RestoreEntity.reintegrate env cmd e w).1.id = e.id ∧
    (RestoreEntity.reintegrate env cmd e w).1.components = e.components := by
  unfold RestoreEntity.reintegrate
  split
  · simp
  · have h1 := activateStep_fst cmd (RestoreEntity.initStep cmd
      (match cmd.m_entityContextId with
        | some contextId => AddEntity env contextId (e, w)
        | none => (e, w)))
    have h2 := initStep_fst cmd
      (match cmd.m_entityContextId with
        | some contextId => AddEntity env contextId (e, w)
        | none => (e, w))
    have h3 := (addStep_facts env cmd e w).1
    refine ⟨h1.1.trans (h2.1.trans ?_), h1.2.trans (h2.2.trans ?_)⟩
    · rw [h3]
    · rw [h3]

theorem reintegrate_frame (env : Env) (cmd : EntityStateCommand) (e : Entity) (w : World) :
    (RestoreEntity.reintegrate env cmd e w).2.cache = w.cache ∧
    (RestoreEntity.reintegrate env cmd e w).2.selected = w.selected := by
  unfold RestoreEntity.reintegrate
  split
  · simp [RestoreSliceEntity]
  · have h1 := activateStep_frame cmd (RestoreEntity.initStep cmd
      (match cmd.m_entityContextId with
        | some contextId => AddEntity env contextId (e, w)
        | none => (e, w)))
    have h2 := initStep_frame cmd
      (match cmd.m_entityContextId with
        | some contextId => AddEntity env contextId (e, w)
        | none => (e, w))
    have h3 := addStep_facts env cmd e w
    exact ⟨h1.1.trans (h2.1.trans h3.2.1), h1.2.trans (h2.2.trans h3.2.2.1)⟩

/-- An entity that the registry holds when it is re-integrated is still the one the
registry holds afterwards, in the state the context, `Init` and `Activate` left it in. -/
theorem reintegrate_sync (env : Env) (cmd : EntityStateCommand) (e : Entity) (w : World)
    (h : w.entities e.id = some e) :
    (RestoreEntity.reintegrate env cmd e w).2.entities e.id =
      some (RestoreEntity.reintegrate env cmd e w).1 := by
  have hid := (reintegrate_fst env cmd e w).1
  rw [← hid]
  unfold RestoreEntity.reintegrate
  split
  · simpa [RestoreSliceEntity] using h
  · apply activateStep_sync
    apply initStep_sync
    have h3 := addStep_facts env cmd e w
    rw [h3.1]
    exact h3.2.2.2.2 h

/-- The loaded entity is in the registry under its own identity. -/
theorem loaded_entities (env : Env) (cmd : EntityStateCommand) (buffer : Bytes)
    (w : World) (e : Entity) (hr : (env.loadBlocking buffer).root = some (some e)) :
    (RestoreEntity.loaded env cmd buffer w).entities e.id = some e := by
  simp [RestoreEntity.loaded, LoadBlocking, hr]

theorem entityAfterLoad_root (env : Env) (cmd : EntityStateCommand) (buffer : Bytes)
    (w : World) (e : Entity) (hr : (env.loadBlocking buffer).root = some (some e)) :
    RestoreEntity.entityAfterLoad env cmd buffer w = some e := by
  simp [RestoreEntity.entityAfterLoad, hr, LoadEntity]

/-! ## Cache coherence -/

/-- C1. Cache coherence: when `RestoreEntity` is given bytes that deserialize to an entity
and returns, `Retrieve(m_entityID)` equals a fresh serialization of whatever entity is
live under `m_entityID` at that moment, on the slice-owned and on the plain branch alike;
and when the deserialized entity carries the command's identity, that live entity exists
and is the deserialized one (same identity and component data) after re-integration and
lifecycle advancement. -/
theorem RestoreEntity_cache_coherence (env : Env) (cmd : EntityStateCommand)
    (buffer : Bytes) (w w' : World) (e : Entity)
    (hload : (env.loadBlocking buffer).root = some (some e))
    (h : EntityStateCommand.RestoreEntity env cmd buffer w = Outcome.done () w') :
    (∀ live, FindEntity w' cmd.m_entityID = some live →
      Retrieve w' cmd.m_entityID = Serialize env live) ∧
    (e.id = cmd.m_entityID →
      ∃ live, FindEntity w' cmd.m_entityID = some live ∧
        live.id = e.id ∧ live.components = e.components ∧
        Retrieve w' cmd.m_entityID = Serialize env live) := by
  obtain ⟨_, _, _, _, e1, he1, hw⟩ := RestoreEntity_done_inv env cmd buffer w w' h
  rw [entityAfterLoad_root env cmd buffer w e hload] at he1
  cases he1
  have hcoh : ∀ live, FindEntity w' cmd.m_entityID = some live →
      Retrieve w' cmd.m_entityID = Serialize env live := by
    intro live hlive
    subst hw
    simp only [FindEntity, SetSelectedEntities, UpdateCache_entities] at hlive
    have := UpdateCache_Retrieve env cmd.m_entityID _ live hlive
    simpa [Retrieve, SetSelectedEntities] using this
  refine ⟨hcoh, ?_⟩
  intro hid
  have hsync := reintegrate_sync env cmd e (RestoreEntity.loaded env cmd buffer w)
    (loaded_entities env cmd buffer w e hload)
  have hfst := reintegrate_fst env cmd e (RestoreEntity.loaded env cmd buffer w)
  have hlive : FindEntity w' cmd.m_entityID =
      some (RestoreEntity.reintegrate env cmd e (RestoreEntity.loaded env cmd buffer w)).1 := by
    subst hw
    simp only [FindEntity, SetSelectedEntities, UpdateCache_entities]
    rw [← hid]
    exact hsync
  exact ⟨_, hlive, hfst.1, hfst.2, hcoh _ hlive⟩

/-- C1, at a concrete restore on the plain branch: the create command of the entity 1 is
redone in the empty world. -/
theorem RestoreEntity_cache_coherence_witness :
    (demoEnv.loadBlocking [1, 1, 7, 8]).root = some (some ⟨1, State.ES_CONSTRUCTED, [7, 8]⟩) ∧
    EntityStateCommand.RestoreEntity demoEnv demoCommand [1, 1, 7, 8] emptyWorld =
      Outcome.done () demoRestored ∧
    FindEntity demoRestored 1 = some ⟨1, State.ES_ACTIVE, [7, 8]⟩ ∧
    Retrieve demoRestored 1 = [1, 1, 7, 8] ∧
    ((∀ live, FindEntity demoRestored demoCommand.m_entityID = some live →
      Retrieve demoRestored demoCommand.m_entityID = Serialize demoEnv live) ∧
    ((⟨1, State.ES_CONSTRUCTED, [7, 8]⟩ : Entity).id = demoCommand.m_entityID →
      ∃ live, FindEntity demoRestored demoCommand.m_entityID = some live ∧
        live.id = (⟨1, State.ES_CONSTRUCTED, [7, 8]⟩ : Entity).id ∧
        live.components = (⟨1, State.ES_CONSTRUCTED, [7, 8]⟩ : Entity).components ∧
        Retrieve demoRestored demoCommand.m_entityID = Serialize demoEnv live)) :=
  ⟨rfl, rfl, rfl, rfl,
    RestoreEntity_cache_coherence demoEnv demoCommand [1, 1, 7, 8] emptyWorld demoRestored
      ⟨1, State.ES_CONSTRUCTED, [7, 8]⟩ rfl rfl⟩

/-! ## Selection -/

/-- C5. Selection determinism: after a `RestoreEntity` that returns, the list applied
through `SetSelectedEntities` (the last call made, and the selection from then on) is the
list read at the start of the restore with the command's identity appended when
`m_isSelected` is true, so the identity is in it; with `m_isSelected` false it is the
list read at the start, unchanged.  A command that `EntityCreateCommand::Capture`
returned always has `m_isSelected` true. -/
theorem RestoreEntity_selection (env : Env) (cmd : EntityStateCommand) (buffer : Bytes)
    (w w' : World)
    (h : EntityStateCommand.RestoreEntity env cmd buffer w = Outcome.done () w') :
    w'.calls.getLast? = some (Call.SetSelectedEntities w'.selected) ∧
    (cmd.m_isSelected = true →
      w'.selected = GetSelectedEntities w ++ [cmd.m_entityID] ∧
      cmd.m_entityID ∈ w'.selected) ∧
    (cmd.m_isSelected = false → w'.selected = GetSelectedEntities w) ∧
    (∀ cmd0 src w0 w1,
      EntityCreateCommand.Capture env cmd0 src w0 = Outcome.done cmd w1 →
      cmd.m_isSelected = true) := by
  obtain ⟨_, _, _, _, e1, _, hw⟩ := RestoreEntity_done_inv env cmd buffer w w' h
  subst hw
  refine ⟨by simp [SetSelectedEntities], ?_, ?_, ?_⟩
  · intro hs
    simp [SetSelectedEntities, RestoreEntity.selection, hs, GetSelectedEntities]
  · intro hs
    simp [SetSelectedEntities, RestoreEntity.selection, hs, GetSelectedEntities]
  · intro cmd0 src w0 w1 hc
    unfold EntityCreateCommand.Capture at hc
    split at hc
    · simp at hc
    · simp only [Outcome.done.injEq] at hc
      rw [← hc.1]

/-- C5, at a concrete restore: the entity 1 was selected at capture, nothing is selected
when the command is redone, and 1 is selected afterwards. -/
theorem RestoreEntity_selection_witness :
    EntityStateCommand.RestoreEntity demoEnv demoCommand [1, 1, 7, 8] emptyWorld =
      Outcome.done () demoRestored ∧
    demoRestored.selected = [1] ∧
    (demoRestored.calls.getLast? = some (Call.SetSelectedEntities demoRestored.selected) ∧
    (demoCommand.m_isSelected = true →
      demoRestored.selected = GetSelectedEntities emptyWorld ++ [demoCommand.m_entityID] ∧
      demoCommand.m_entityID ∈ demoRestored.selected) ∧
    (demoCommand.m_isSelected = false →
      demoRestored.selected = GetSelectedEntities emptyWorld) ∧
    (∀ cmd0 src w0 w1,
      EntityCreateCommand.Capture demoEnv cmd0 src w0 = Outcome.done demoCommand w1 →
      demoCommand.m_isSelected = true)) :=
  ⟨rfl, rfl,
    RestoreEntity_selection demoEnv demoCommand [1, 1, 7, 8] emptyWorld demoRestored rfl⟩

/-! ## Create and delete -/

/-- C2. Create/Delete inverse: when `EntityCreateCommand::Redo` returns, the
`EntityCreateCommand::Undo` that follows returns too and leaves no entity under the
command's identity and no cache entry for it; when `EntityDeleteCommand::Undo` returns,
the `EntityDeleteCommand::Redo` that follows returns too and leaves no entity under the
identity and no cache entry for it. -/
theorem create_delete_inverse (env : Env) (cmd : EntityStateCommand) (w w1 : World) :
    (EntityCreateCommand.Redo env cmd w = Outcome.done () w1 →
      ∃ w2, EntityCreateCommand.Undo env cmd w1 = Outcome.done () w2 ∧
        FindEntity w2 cmd.m_entityID = none ∧ w2.cache cmd.m_entityID = none ∧
        Retrieve w2 cmd.m_entityID = []) ∧
    (EntityDeleteCommand.Undo env cmd w = Outcome.done () w1 →
      ∃ w2, EntityDeleteCommand.Redo env cmd w1 = Outcome.done () w2 ∧
        FindEntity w2 cmd.m_entityID = none ∧ w2.cache cmd.m_entityID = none ∧
        Retrieve w2 cmd.m_entityID = []) := by
  constructor
  · intro h
    obtain ⟨_, _, huc, _⟩ := RestoreEntity_done_inv env cmd _ w w1 h
    refine ⟨PurgeCache cmd.m_entityID (DeleteEntity cmd.m_entityID w1), ?_, ?_, ?_, ?_⟩
    · simp [EntityCreateCommand.Undo, huc]
    · simp [FindEntity, PurgeCache, DeleteEntity]
    · simp [PurgeCache]
    · simp [Retrieve, PurgeCache]
  · intro h
    obtain ⟨_, _, huc, _⟩ := RestoreEntity_done_inv env cmd _ w w1 h
    refine ⟨PurgeCache cmd.m_entityID (DeleteEntity cmd.m_entityID w1), ?_, ?_, ?_, ?_⟩
    · simp [EntityDeleteCommand.Redo, huc]
    · simp [FindEntity, PurgeCache, DeleteEntity]
    · simp [PurgeCache]
    · simp [Retrieve, PurgeCache]

/-- C2, at concrete commands: the create command of the entity 1 is redone and undone,
and the delete command of the entity 1 is undone and redone; before the second step the
entity is live and cached, after it neither. -/
theorem create_delete_inverse_witness :
    EntityCreateCommand.Redo demoEnv demoCommand emptyWorld = Outcome.done () demoRestored ∧
    EntityDeleteCommand.Undo demoEnv demoDeleteCommand emptyWorld =
      Outcome.done () demoUndeleted ∧
    FindEntity demoRestored 1 = some ⟨1, State.ES_ACTIVE, [7, 8]⟩ ∧
    FindEntity demoUndeleted 1 = some ⟨1, State.ES_ACTIVE, [7, 8]⟩ ∧
    Retrieve demoRestored 1 = [1, 1, 7, 8] ∧
    Retrieve demoUndeleted 1 = [1, 1, 7, 8] ∧
    (∃ w2, EntityCreateCommand.Undo demoEnv demoCommand demoRestored = Outcome.done () w2 ∧
        FindEntity w2 demoCommand.m_entityID = none ∧ w2.cache demoCommand.m_entityID = none ∧
        Retrieve w2 demoCommand.m_entityID = []) ∧
    (∃ w2, EntityDeleteCommand.Redo demoEnv demoDeleteCommand demoUndeleted =
          Outcome.done () w2 ∧
        FindEntity w2 demoDeleteCommand.m_entityID = none ∧
        w2.cache demoDeleteCommand.m_entityID = none ∧
        Retrieve w2 demoDeleteCommand.m_entityID = []) :=
  ⟨rfl, rfl, rfl, rfl, rfl, rfl,
    (create_delete_inverse demoEnv demoCommand emptyWorld demoRestored).1 rfl,
    (create_delete_inverse demoEnv demoDeleteCommand emptyWorld demoUndeleted).2 rfl⟩

/-! ## Lifecycle -/

theorem State.later_rank (r s : State) : s.rank ≤ (State.later r s).rank := by
  cases r <;> cases s <;> simp [State.later, State.rank]

/-- The plain branch of the re-integration, computed: the entity ends in the later of
the recorded state and the state it has after the context registration, and the calls
are `AddEntity` (with a context recorded), `Init` and `Activate` under the conditions of
the source. -/
theorem reintegrate_plain (env : Env) (cmd : EntityStateCommand) (e : Entity) (w : World)
    (hs : cmd.m_sliceRestoreInfo = none) :
    (RestoreEntity.reintegrate env cmd e w).1 =
      { e with state :=
          State.later cmd.m_entityState (RestoreEntity.stateAfterAdd env cmd e) } ∧
    (RestoreEntity.reintegrate env cmd e w).2.calls =
      w.calls ++
      (match cmd.m_entityContextId with
        | some contextId => [Call.AddEntity contextId e]
        | none => []) ++
      (if (cmd.m_entityState = State.ES_INIT ∨ cmd.m_entityState = State.ES_ACTIVE) ∧
          RestoreEntity.stateAfterAdd env cmd e = State.ES_CONSTRUCTED
        then [Call.Init e.id] else []) ++
      (if cmd.m_entityState = State.ES_ACTIVE ∧
          (RestoreEntity.stateAfterAdd env cmd e = State.ES_CONSTRUCTED ∨
            RestoreEntity.stateAfterAdd env cmd e = State.ES_INIT)
        then [Call.Activate e.id] else []) := by
  obtain ⟨h1, _, _, h4, _⟩ := addStep_facts env cmd e w
  unfold RestoreEntity.reintegrate
  simp only [hs]
  generalize (match cmd.m_entityContextId with
    | some contextId => AddEntity env contextId (e, w)
    | none => (e, w)) = p at h1 h4
  obtain ⟨e1, w1⟩ := p
  simp only at h1 h4
  subst h1
  generalize RestoreEntity.stateAfterAdd env cmd e = s at *
  cases hr : cmd.m_entityState <;> cases s <;>
    simp [RestoreEntity.initStep, RestoreEntity.activateStep,
      Entity.Init, Entity.Activate, hr, h4, State.later, State.rank]

/-- The slice branch of the re-integration, computed: one call, `RestoreSliceEntity`,
and the entity as it was loaded. -/
theorem reintegrate_slice (env : Env) (cmd : EntityStateCommand) (e : Entity) (w : World)
    (info : EntityRestoreInfo) (hs : cmd.m_sliceRestoreInfo = some info) :
    (RestoreEntity.reintegrate env cmd e w).1 = e ∧
    (RestoreEntity.reintegrate env cmd e w).2.calls =
      w.calls ++ [Call.RestoreSliceEntity e info] := by
  simp [RestoreEntity.reintegrate, hs, RestoreSliceEntity]

theorem loaded_calls (env : Env) (cmd : EntityStateCommand) (buffer : Bytes) (w : World) :
    (RestoreEntity.loaded env cmd buffer w).calls =
      (RestoreEntity.pinAsset cmd w).calls ++
        [Call.DeleteEntity cmd.m_entityID, Call.LoadBlocking buffer] := by
  unfold RestoreEntity.loaded LoadBlocking
  split <;> simp [DeleteEntity]

/-- C10. Lifecycle restore: on the non-slice branch, for every recorded state `r` and
every state `s` the new entity has after deserialization and context registration,
`RestoreEntity` leaves the entity in the later of `r` and `s` under
constructed < initialized < active, never in an earlier state than `s`; it calls `Init`
exactly when `r` is initialized or active and `s` is constructed, then `Activate` exactly
when `r` is active and the entity is then initialized (`s` was constructed or
initialized), and `AddEntity` exactly when a context was recorded.  On the slice-owned
branch the calls are `FindAsset`, `DeleteEntity`, `LoadBlocking`, `RestoreSliceEntity`,
`UpdateCache` and `SetSelectedEntities`: no `Init`, no `Activate`, no `AddEntity`. -/
theorem RestoreEntity_lifecycle (env : Env) (cmd : EntityStateCommand) (buffer : Bytes)
    (w w' : World) (e : Entity)
    (hload : (env.loadBlocking buffer).root = some (some e))
    (h : EntityStateCommand.RestoreEntity env cmd buffer w = Outcome.done () w') :
    (cmd.m_sliceRestoreInfo = none →
      FindEntity w' e.id = some
        { e with
          state := State.later cmd.m_entityState (RestoreEntity.stateAfterAdd env cmd e) } ∧
      (RestoreEntity.stateAfterAdd env cmd e).rank ≤
        (State.later cmd.m_entityState (RestoreEntity.stateAfterAdd env cmd e)).rank ∧
      w'.calls = w.calls ++
        [Call.DeleteEntity cmd.m_entityID, Call.LoadBlocking buffer] ++
        (match cmd.m_entityContextId with
          | some contextId => [Call.AddEntity contextId e]
          | none => []) ++
        (if (cmd.m_entityState = State.ES_INIT ∨ cmd.m_entityState = State.ES_ACTIVE) ∧
            RestoreEntity.stateAfterAdd env cmd e = State.ES_CONSTRUCTED
          then [Call.Init e.id] else []) ++
        (if cmd.m_entityState = State.ES_ACTIVE ∧
            (RestoreEntity.stateAfterAdd env cmd e = State.ES_CONSTRUCTED ∨
              RestoreEntity.stateAfterAdd env cmd e = State.ES_INIT)
          then [Call.Activate e.id] else []) ++
        [Call.UpdateCache cmd.m_entityID, Call.SetSelectedEntities w'.selected]) ∧
    (∀ info, cmd.m_sliceRestoreInfo = some info →
      w'.calls = w.calls ++
        [Call.FindAsset info.assetId, Call.DeleteEntity cmd.m_entityID,
          Call.LoadBlocking buffer, Call.RestoreSliceEntity e info,
          Call.UpdateCache cmd.m_entityID, Call.SetSelectedEntities w'.selected]) := by
  obtain ⟨_, _, _, _, e1, he1, hw⟩ := RestoreEntity_done_inv env cmd buffer w w' h
  rw [entityAfterLoad_root env cmd buffer w e hload] at he1
  cases he1
  have hsync := reintegrate_sync env cmd e (RestoreEntity.loaded env cmd buffer w)
    (loaded_entities env cmd buffer w e hload)
  have hcalls := loaded_calls env cmd buffer w
  subst hw
  constructor
  · intro hs
    obtain ⟨h1, h2⟩ := reintegrate_plain env cmd e (RestoreEntity.loaded env cmd buffer w) hs
    refine ⟨?_, State.later_rank _ _, ?_⟩
    · simp only [FindEntity, SetSelectedEntities, UpdateCache_entities]
      rw [hsync, h1]
    · simp only [SetSelectedEntities, UpdateCache_calls, h2, hcalls]
      simp [RestoreEntity.pinAsset, hs]
  · intro info hs
    obtain ⟨_, h2⟩ :=
      reintegrate_slice env cmd e (RestoreEntity.loaded env cmd buffer w) info hs
    simp only [SetSelectedEntities, UpdateCache_calls, h2, hcalls]
    simp [RestoreEntity.pinAsset, hs, FindAsset]

/-- C10, at three concrete restores of an entity loaded as constructed, with the recorded
state active: with the context 5 recorded and a context that leaves the entity as it
is, the calls are `AddEntity`, `Init`, `Activate` and the entity ends active; with a
context that activates what it is given, neither `Init` nor `Activate` is called; with
slice restore info held, the one re-integration call is `RestoreSliceEntity`. -/
theorem RestoreEntity_lifecycle_witness :
    (demoEnv.loadBlocking [1, 1, 7, 8]).root =
      some (some ⟨1, State.ES_CONSTRUCTED, [7, 8]⟩) ∧
    EntityStateCommand.RestoreEntity demoEnv demoCommand [1, 1, 7, 8] emptyWorld =
      Outcome.done () demoRestored ∧
    EntityStateCommand.RestoreEntity activatingEnv demoCommand [1, 1, 7, 8] emptyWorld =
      Outcome.done ()
        (EntityStateCommand.RestoreEntity activatingEnv demoCommand [1, 1, 7, 8]
          emptyWorld).world ∧
    EntityStateCommand.RestoreEntity demoEnv demoSliceCommand [1, 1, 7, 8] emptyWorld =
      Outcome.done () demoSliceRestored ∧
    (FindEntity demoRestored 1 = some ⟨1, State.ES_ACTIVE, [7, 8]⟩ ∧
      demoRestored.calls =
        [Call.DeleteEntity 1, Call.LoadBlocking [1, 1, 7, 8],
          Call.AddEntity 5 ⟨1, State.ES_CONSTRUCTED, [7, 8]⟩, Call.Init 1, Call.Activate 1,
          Call.UpdateCache 1, Call.SetSelectedEntities [1]]) ∧
    (EntityStateCommand.RestoreEntity activatingEnv demoCommand [1, 1, 7, 8]
        emptyWorld).world.calls =
      [Call.DeleteEntity 1, Call.LoadBlocking [1, 1, 7, 8],
        Call.AddEntity 5 ⟨1, State.ES_CONSTRUCTED, [7, 8]⟩,
        Call.UpdateCache 1, Call.SetSelectedEntities [1]] ∧
    demoSliceRestored.calls =
      [Call.FindAsset 3, Call.DeleteEntity 1, Call.LoadBlocking [1, 1, 7, 8],
        Call.RestoreSliceEntity ⟨1, State.ES_CONSTRUCTED, [7, 8]⟩ ⟨3, 4⟩,
        Call.UpdateCache 1, Call.SetSelectedEntities [1]] :=
  ⟨rfl, rfl, rfl, rfl,
    ⟨((RestoreEntity_lifecycle demoEnv demoCommand [1, 1, 7, 8] emptyWorld demoRestored
        ⟨1, State.ES_CONSTRUCTED, [7, 8]⟩ rfl rfl).1 rfl).1,
     ((RestoreEntity_lifecycle demoEnv demoCommand [1, 1, 7, 8] emptyWorld demoRestored
        ⟨1, State.ES_CONSTRUCTED, [7, 8]⟩ rfl rfl).1 rfl).2.2⟩,
    ((RestoreEntity_lifecycle activatingEnv demoCommand [1, 1, 7, 8] emptyWorld
        (EntityStateCommand.RestoreEntity activatingEnv demoCommand [1, 1, 7, 8]
          emptyWorld).world
        ⟨1, State.ES_CONSTRUCTED, [7, 8]⟩ rfl rfl).1 rfl).2.2,
    (RestoreEntity_lifecycle demoEnv demoSliceCommand [1, 1, 7, 8] emptyWorld
        demoSliceRestored ⟨1, State.ES_CONSTRUCTED, [7, 8]⟩ rfl rfl).2 ⟨3, 4⟩ rfl⟩

/-! ## Capture -/

/-- The slice step of `Capture` changes nothing but `m_sliceRestoreInfo`. -/
theorem sliceInfo_done (cmd cmd1 : EntityStateCommand) (w w1 : World)
    (h : Capture.sliceInfo cmd w = Outcome.done cmd1 w1) :
    w1 = w ∧ cmd1.m_undoState = cmd.m_undoState ∧ cmd1.m_redoState = cmd.m_redoState ∧
    cmd1.m_entityID = cmd.m_entityID ∧ cmd1.m_isSelected = cmd.m_isSelected ∧
    cmd1.m_entityState = cmd.m_entityState ∧
    cmd1.m_entityContextId = cmd.m_entityContextId := by
  unfold Capture.sliceInfo at h
  split at h
  · split at h
    · simp at h
    · simp only [Outcome.done.injEq] at h
      obtain ⟨hc, hw⟩ := h
      subst hc hw
      simp
  · simp only [Outcome.done.injEq] at h
    obtain ⟨hc, hw⟩ := h
    subst hc hw
    simp

/-- The slice step of `Capture` returns unless the entity is slice-owned and there is
no editor root slice. -/
theorem sliceInfo_returns (cmd : EntityStateCommand) (w : World)
    (h : GetOwningSlice w cmd.m_entityID = true → (GetEditorRootSlice w).isSome = true) :
    ∃ cmd1, Capture.sliceInfo cmd w = Outcome.done cmd1 w := by
  unfold Capture.sliceInfo
  split
  · rename_i hs
    have := h hs
    cases hr : GetEditorRootSlice w with
    | none => simp [hr] at this
    | some m => exact ⟨_, rfl⟩
  · exact ⟨_, rfl⟩

/-- What a completed undo-side step of `Capture` has done. -/
theorem undoSide_done (env : Env) (cmd cmd1 : EntityStateCommand) (w w1 : World)
    (h : Capture.undoSide env cmd w = Outcome.done cmd1 w1) :
    (Retrieve w cmd.m_entityID ≠ [] →
      cmd1.m_undoState = Retrieve w cmd.m_entityID ∧ w1 = w) ∧
    (Retrieve w cmd.m_entityID = [] →
      w1 = UpdateCache env cmd.m_entityID w ∧
      cmd1.m_undoState = Retrieve w1 cmd.m_entityID) ∧
    cmd1.m_undoState ≠ [] ∧ cmd1.m_redoState = cmd.m_redoState ∧
    cmd1.m_entityID = cmd.m_entityID := by
  unfold Capture.undoSide at h
  by_cases h0 : Retrieve w cmd.m_entityID = []
  · simp only [h0, List.isEmpty_nil, if_true] at h
    split at h
    · simp at h
    · rename_i hne
      simp only [Outcome.done.injEq] at h
      obtain ⟨hc, hw⟩ := h
      subst hc hw
      simp only [List.isEmpty_eq_true] at hne
      simp [h0, hne]
  · have hf : (Retrieve w cmd.m_entityID).isEmpty = false := by
      simpa using h0
    simp only [hf] at h
    simp only [Bool.false_eq_true, if_false, Outcome.done.injEq] at h
    obtain ⟨hc, hw⟩ := h
    subst hc hw
    simp [h0]

/-- What a completed redo-side step of `Capture` has done. -/
theorem redoSide_done (env : Env) (cmd cmd1 : EntityStateCommand) (e : Entity)
    (w w1 : World) (h : Capture.redoSide env cmd e w = Outcome.done cmd1 w1) :
    w1 = w ∧ cmd1.m_redoState = Serialize env e ∧ cmd1.m_undoState = cmd.m_undoState ∧
    cmd1.m_entityID = cmd.m_entityID := by
  unfold Capture.redoSide at h
  split at h
  · simp at h
  · split at h
    · simp at h
    · simp only [Outcome.done.injEq] at h
      obtain ⟨hc, hw⟩ := h
      subst hc hw
      simp

/-- What a completed `Capture` has done: the three assertions at its start held, and the
snapshot step and the slice step returned one after the other. -/
theorem Capture_done_inv (env : Env) (cmd cmd1 : EntityStateCommand) (e : Entity)
    (captureUndo : Bool) (w w1 : World)
    (h : EntityStateCommand.Capture env cmd e captureUndo w = Outcome.done cmd1 w1) :
    env.undoCache = true ∧ env.serializeContext = true ∧
    (captureUndo = true → cmd.m_undoState = []) ∧
    ∃ cmd3 w3,
      (if captureUndo then Capture.undoSide env (Capture.recorded cmd e w) w
        else Capture.redoSide env (Capture.recorded cmd e w) e w) = Outcome.done cmd3 w3 ∧
      Capture.sliceInfo cmd3 w3 = Outcome.done cmd1 w1 := by
  unfold EntityStateCommand.Capture at h
  by_cases huc : env.undoCache = true
  swap
  · simp [huc] at h
  by_cases hsc : env.serializeContext = true
  swap
  · simp only [huc, hsc] at h
    split at h
    · simp at h
    · split at h <;> simp at h
  by_cases htw : (captureUndo && !cmd.m_undoState.isEmpty) = true
  · simp [huc, htw] at h
  refine ⟨huc, hsc, ?_, ?_⟩
  · intro hcu
    simpa [hcu] using htw
  · simp only [huc, hsc, htw] at h
    simp only [Bool.not_true, Bool.false_eq_true, if_false] at h
    split at h
    · simp at h
    · rename_i cmd3 w3 hstage
      exact ⟨cmd3, w3, hstage, h⟩

/-- A command whose `m_undoState` is not empty cannot capture the undo side: the
assertion on line 69 stops `Capture`. -/
theorem Capture_undo_rejected (env : Env) (cmd : EntityStateCommand) (e : Entity)
    (w : World) (huc : env.undoCache = true) (hne : cmd.m_undoState ≠ []) :
    EntityStateCommand.Capture env cmd e true w =
      Outcome.fatal Assert.undoCapturedTwice w := by
  unfold EntityStateCommand.Capture
  simp [huc, hne]

/-- A redo-side `Capture` is never stopped by the assertion on line 69. -/
theorem Capture_redo_not_rejected (env : Env) (cmd : EntityStateCommand) (e : Entity)
    (w w1 : World) :
    EntityStateCommand.Capture env cmd e false w ≠
      Outcome.fatal Assert.undoCapturedTwice w1 := by
  unfold EntityStateCommand.Capture
  by_cases huc : env.undoCache = true
  swap
  · simp [huc]
  by_cases hsc : env.serializeContext = true
  swap
  · simp [huc, hsc]
  simp only [huc, hsc, Bool.false_and, Bool.not_true, Bool.false_eq_true, if_false]
  intro h
  split at h
  · rename_i a w3 hstage
    simp only [Capture.redoSide] at hstage
    split at hstage
    · simp only [Outcome.fatal.injEq] at hstage h
      rw [← hstage.1] at h
      simp at h
    · split at hstage
      · simp only [Outcome.fatal.injEq] at hstage h
        rw [← hstage.1] at h
        simp at h
      · simp at hstage
  · rename_i cmd3 w3 hstage
    unfold Capture.sliceInfo at h
    split at h
    · split at h <;> simp at h
    · simp at h

/-- A redo-side `Capture` that returns leaves `m_undoState` as it was. -/
theorem Capture_redo_undoState (env : Env) (cmd cmd1 : EntityStateCommand) (e : Entity)
    (w w1 : World)
    (h : EntityStateCommand.Capture env cmd e false w = Outcome.done cmd1 w1) :
    cmd1.m_undoState = cmd.m_undoState := by
  obtain ⟨_, _, _, cmd3, w3, hstage, hslice⟩ := Capture_done_inv env cmd cmd1 e false w w1 h
  simp only [Bool.false_eq_true, if_false] at hstage
  have h1 := redoSide_done env _ cmd3 e w w3 hstage
  have h2 := sliceInfo_done cmd3 cmd1 w3 w1 hslice
  rw [h2.2.1, h1.2.2.1]
  rfl

theorem captureRedoAll_undoState (env : Env) (l : List (Entity × World)) :
    ∀ (cmd cmd1 : EntityStateCommand), captureRedoAll env cmd l = some cmd1 →
      cmd1.m_undoState = cmd.m_undoState := by
  induction l with
  | nil =>
    intro cmd cmd1 h
    simp only [captureRedoAll, Option.some.injEq] at h
    rw [h]
  | cons p rest ih =>
    intro cmd cmd1 h
    obtain ⟨e, w⟩ := p
    simp only [captureRedoAll] at h
    split at h
    · rename_i c2 w2 hc
      rw [ih c2 cmd1 h, Capture_redo_undoState env cmd c2 e w w2 hc]
    · simp at h

/-- The undo-side step of `Capture` returns when the cache holds a non-empty entry for
the identity, or holds one once it is updated. -/
theorem undoSide_returns (env : Env) (cmd : EntityStateCommand) (w : World)
    (h : Retrieve w cmd.m_entityID ≠ [] ∨
      Retrieve (UpdateCache env cmd.m_entityID w) cmd.m_entityID ≠ []) :
    ∃ cmd1 w1, Capture.undoSide env cmd w = Outcome.done cmd1 w1 ∧
      (w1 = w ∨ w1 = UpdateCache env cmd.m_entityID w) := by
  unfold Capture.undoSide
  by_cases h0 : Retrieve w cmd.m_entityID = []
  · have h1 : Retrieve (UpdateCache env cmd.m_entityID w) cmd.m_entityID ≠ [] := by
      rcases h with h | h
      · exact absurd h0 h
      · exact h
    refine ⟨{ cmd with
        m_undoState := Retrieve (UpdateCache env cmd.m_entityID w) cmd.m_entityID },
      UpdateCache env cmd.m_entityID w, ?_, Or.inr rfl⟩
    simp [h0, h1]
  · refine ⟨{ cmd with m_undoState := Retrieve w cmd.m_entityID }, w, ?_, Or.inl rfl⟩
    simp [h0]

/-- An undo-side `Capture` returns when the command holds no undo state yet, the cache
instance and the serialize context exist, a slice-owned entity has a root slice to ask,
and the cache holds a non-empty entry for the identity at once or after its update. -/
theorem Capture_undo_returns (env : Env) (cmd : EntityStateCommand) (e : Entity)
    (w : World) (hfresh : cmd.m_undoState = []) (huc : env.undoCache = true)
    (hsc : env.serializeContext = true)
    (hslice : GetOwningSlice w e.id = true → (GetEditorRootSlice w).isSome = true)
    (hcache : Retrieve w e.id ≠ [] ∨ Retrieve (UpdateCache env e.id w) e.id ≠ []) :
    ∃ cmd1 w1, EntityStateCommand.Capture env cmd e true w = Outcome.done cmd1 w1 := by
  obtain ⟨cmd3, w3, hstage, hw3⟩ :=
    undoSide_returns env (Capture.recorded cmd e w) w hcache
  have hid : cmd3.m_entityID = e.id :=
    (undoSide_done env _ cmd3 w w3 hstage).2.2.2.2
  have hs3 : GetOwningSlice w3 cmd3.m_entityID = true →
      (GetEditorRootSlice w3).isSome = true := by
    rw [hid]
    rcases hw3 with hw3 | hw3
    · rw [hw3]
      exact hslice
    · rw [hw3]
      unfold UpdateCache
      split <;> exact hslice
  obtain ⟨cmd1, hfin⟩ := sliceInfo_returns cmd3 w3 hs3
  refine ⟨cmd1, w3, ?_⟩
  unfold EntityStateCommand.Capture
  simp only [huc, hsc, hfresh, List.isEmpty_nil, Bool.not_true, Bool.and_false,
    Bool.false_eq_true, if_false, if_true]
  have hstage2 : Capture.undoSide env
      { m_entityID := e.id, m_entityContextId := GetOwningContextId w e.id,
        m_entityState := e.state, m_isSelected := IsSelected w e.id,
        m_sliceRestoreInfo := none, m_undoState := [],
        m_redoState := cmd.m_redoState } w = Outcome.done cmd3 w3 := by
    have : Capture.recorded cmd e w =
        { m_entityID := e.id, m_entityContextId := GetOwningContextId w e.id,
          m_entityState := e.state, m_isSelected := IsSelected w e.id,
          m_sliceRestoreInfo := none, m_undoState := [],
          m_redoState := cmd.m_redoState } := by
      simp [Capture.recorded, hfresh]
    rw [← this]
    exact hstage
  rw [hstage2]
  exact hfin

/-- What a completed undo-side `Capture` has done. -/
theorem Capture_undo_done (env : Env) (cmd cmd1 : EntityStateCommand) (e : Entity)
    (w w1 : World)
    (h : EntityStateCommand.Capture env cmd e true w = Outcome.done cmd1 w1) :
    cmd.m_undoState = [] ∧
    (Retrieve w e.id ≠ [] → cmd1.m_undoState = Retrieve w e.id ∧ w1 = w) ∧
    (Retrieve w e.id = [] →
      w1 = UpdateCache env e.id w ∧ cmd1.m_undoState = Retrieve w1 e.id) ∧
    cmd1.m_undoState ≠ [] ∧ cmd1.m_redoState = cmd.m_redoState ∧
    cmd1.m_entityID = e.id := by
  obtain ⟨_, _, hfresh, cmd3, w3, hstage, hslice⟩ :=
    Capture_done_inv env cmd cmd1 e true w w1 h
  simp only [if_true] at hstage
  obtain ⟨h1, h2, h3, h4, h5⟩ := undoSide_done env _ cmd3 w w3 hstage
  obtain ⟨hw, hu, hr, hi, _⟩ := sliceInfo_done cmd3 cmd1 w3 w1 hslice
  have hid : (Capture.recorded cmd e w).m_entityID = e.id := rfl
  rw [hid] at h1 h2 h5
  refine ⟨hfresh rfl, ?_, ?_, ?_, ?_, ?_⟩
  · intro hne
    obtain ⟨ha, hb⟩ := h1 hne
    exact ⟨hu.trans ha, hw.trans hb⟩
  · intro he
    obtain ⟨ha, hb⟩ := h2 he
    refine ⟨hw.trans ha, ?_⟩
    rw [hu, hb, hw]
  · rw [hu]
    exact h3
  · rw [hr, h4]
    rfl
  · rw [hi, h5]

/-- C6. Undo-side capture: a `Capture(entity, true)` that returns was made on a command
whose `m_undoState` was empty; when the cache entry for the identity is non-empty,
`m_undoState` is that entry and the world is untouched (no `UpdateCache`, no call at all,
the cache as before); otherwise the world is the one `UpdateCache` for that identity
leaves and `m_undoState` is the refreshed entry; in both cases `m_undoState` is non-empty
and `m_redoState` is as before.  And the capture does return on a command without undo
state whenever the cache holds, at once or after the update, a non-empty entry. -/
theorem Capture_undo_side (env : Env) (cmd : EntityStateCommand) (e : Entity) (w : World) :
    (∀ cmd1 w1, EntityStateCommand.Capture env cmd e true w = Outcome.done cmd1 w1 →
      cmd.m_undoState = [] ∧
      (Retrieve w e.id ≠ [] → cmd1.m_undoState = Retrieve w e.id ∧ w1 = w) ∧
      (Retrieve w e.id = [] →
        w1 = UpdateCache env e.id w ∧ cmd1.m_undoState = Retrieve w1 e.id) ∧
      cmd1.m_undoState ≠ [] ∧ cmd1.m_redoState = cmd.m_redoState) ∧
    (cmd.m_undoState = [] → env.undoCache = true → env.serializeContext = true →
      (GetOwningSlice w e.id = true → (GetEditorRootSlice w).isSome = true) →
      (Retrieve w e.id ≠ [] ∨ Retrieve (UpdateCache env e.id w) e.id ≠ []) →
      ∃ cmd1 w1, EntityStateCommand.Capture env cmd e true w = Outcome.done cmd1 w1) := by
  refine ⟨?_, Capture_undo_returns env cmd e w⟩
  intro cmd1 w1 h
  obtain ⟨h1, h2, h3, h4, h5, _⟩ := Capture_undo_done env cmd cmd1 e w w1 h
  exact ⟨h1, h2, h3, h4, h5⟩

/-- C6, at two concrete captures of the entity 1 on a new command: with no cache entry
the cache is updated and `m_undoState` is the refreshed entry; with the entry present
the world is untouched and `m_undoState` is that entry. -/
theorem Capture_undo_side_witness :
    EntityStateCommand.Capture demoEnv EntityStateCommand.new demoEntity true demoWorld =
      Outcome.done demoDeleteCommand (UpdateCache demoEnv 1 demoWorld) ∧
    EntityStateCommand.Capture demoEnv EntityStateCommand.new demoEntity true
      (UpdateCache demoEnv 1 demoWorld) =
      Outcome.done demoDeleteCommand (UpdateCache demoEnv 1 demoWorld) ∧
    Retrieve demoWorld 1 = [] ∧
    Retrieve (UpdateCache demoEnv 1 demoWorld) 1 = [1, 1, 7, 8] ∧
    demoDeleteCommand.m_undoState = Retrieve (UpdateCache demoEnv 1 demoWorld) 1 ∧
    demoDeleteCommand.m_undoState ≠ [] ∧
    demoDeleteCommand.m_redoState = EntityStateCommand.new.m_redoState ∧
    (∃ cmd1 w1, EntityStateCommand.Capture demoEnv EntityStateCommand.new demoEntity true
      demoWorld = Outcome.done cmd1 w1) :=
  ⟨rfl, rfl, rfl, rfl,
    (((Capture_undo_side demoEnv EntityStateCommand.new demoEntity demoWorld).1
      demoDeleteCommand (UpdateCache demoEnv 1 demoWorld) rfl).2.2.1 rfl).2,
    ((Capture_undo_side demoEnv EntityStateCommand.new demoEntity
      (UpdateCache demoEnv 1 demoWorld)).1
      demoDeleteCommand (UpdateCache demoEnv 1 demoWorld) rfl).2.2.2.1,
    ((Capture_undo_side demoEnv EntityStateCommand.new demoEntity demoWorld).1
      demoDeleteCommand (UpdateCache demoEnv 1 demoWorld) rfl).2.2.2.2,
    (Capture_undo_side demoEnv EntityStateCommand.new demoEntity demoWorld).2
      rfl rfl rfl (fun _ => rfl) (Or.inr (by decide))⟩

/-- C7. Single undo capture: once `Capture(entity, true)` has returned on a command, every
further `Capture(entity2, true)` on that instance, at once or after any number of
redo-side captures, is stopped by the assertion "You can't capture undo more than once"
before it touches the world; a `Capture` with `captureUndo = false` is never stopped by
that assertion, on any command. -/
theorem undo_captured_once (env : Env) (cmd cmd1 : EntityStateCommand) (e : Entity)
    (w w1 : World)
    (h : EntityStateCommand.Capture env cmd e true w = Outcome.done cmd1 w1) :
    (∀ (l : List (Entity × World)) (cmd2 : EntityStateCommand),
      captureRedoAll env cmd1 l = some cmd2 →
      ∀ e2 w2, EntityStateCommand.Capture env cmd2 e2 true w2 =
        Outcome.fatal Assert.undoCapturedTwice w2) ∧
    (∀ c e2 w2 w3, EntityStateCommand.Capture env c e2 false w2 ≠
      Outcome.fatal Assert.undoCapturedTwice w3) := by
  have hne : cmd1.m_undoState ≠ [] :=
    (Capture_undo_done env cmd cmd1 e w w1 h).2.2.2.1
  have huc : env.undoCache = true := (Capture_done_inv env cmd cmd1 e true w w1 h).1
  refine ⟨?_, fun c e2 w2 w3 => Capture_redo_not_rejected env c e2 w2 w3⟩
  intro l cmd2 hl e2 w2
  apply Capture_undo_rejected env cmd2 e2 w2 huc
  rw [captureRedoAll_undoState env l cmd1 cmd2 hl]
  exact hne

/-- C7, at a concrete command: the undo side of the entity 1 is captured on a new
command; a second undo-side capture on the result is stopped, also after a redo-side
capture in between. -/
theorem undo_captured_once_witness :
    EntityStateCommand.Capture demoEnv EntityStateCommand.new demoEntity true demoWorld =
      Outcome.done demoDeleteCommand (UpdateCache demoEnv 1 demoWorld) ∧
    EntityStateCommand.Capture demoEnv demoDeleteCommand demoEntity true demoWorld =
      Outcome.fatal Assert.undoCapturedTwice demoWorld ∧
    captureRedoAll demoEnv demoDeleteCommand [(demoEntity, demoWorld)] =
      some { demoDeleteCommand with m_redoState := [1, 1, 7, 8] } ∧
    EntityStateCommand.Capture demoEnv { demoDeleteCommand with m_redoState := [1, 1, 7, 8] }
      demoEntity true demoWorld = Outcome.fatal Assert.undoCapturedTwice demoWorld :=
  ⟨rfl,
    (undo_captured_once demoEnv EntityStateCommand.new demoDeleteCommand demoEntity demoWorld
      (UpdateCache demoEnv 1 demoWorld) rfl).1 [] demoDeleteCommand rfl demoEntity demoWorld,
    rfl,
    (undo_captured_once demoEnv EntityStateCommand.new demoDeleteCommand demoEntity demoWorld
      (UpdateCache demoEnv 1 demoWorld) rfl).1 [(demoEntity, demoWorld)]
      { demoDeleteCommand with m_redoState := [1, 1, 7, 8] } rfl demoEntity demoWorld⟩

/-! ## Round trip -/

theorem demoEnv_RoundTrips : RoundTrips demoEnv := by
  intro e
  exact ⟨State.ES_CONSTRUCTED, rfl⟩

/-- Restoring a fresh serialization of `e` under the identity of `e`, with an engine whose
Deserialize undoes Serialize: the restore returns and leaves, under that identity, a live
entity with the serialization of `e`, which is also the cache entry. -/
theorem RestoreEntity_round_trip (env : Env) (hrt : RoundTrips env)
    (cmd : EntityStateCommand) (e : Entity) (hid : cmd.m_entityID = e.id)
    (hne : Serialize env e ≠ []) (hsc : env.serializeContext = true)
    (huc : env.undoCache = true) (w : World) :
    ∃ w' live, EntityStateCommand.RestoreEntity env cmd (Serialize env e) w =
        Outcome.done () w' ∧
      FindEntity w' e.id = some live ∧ Serialize env live = Serialize env e ∧
      Retrieve w' e.id = Serialize env e := by
  obtain ⟨s, hs⟩ := hrt e
  have hroot : (env.loadBlocking (Serialize env e)).root =
      some (some ⟨e.id, s, e.components⟩) := by rw [hs]
  have hok : (env.loadBlocking (Serialize env e)).success = true := by rw [hs]
  have hdone := RestoreEntity_done_of env cmd (Serialize env e) w ⟨e.id, s, e.components⟩
    hne hsc huc hok (entityAfterLoad_root env cmd _ w _ hroot)
  have hsync := reintegrate_sync env cmd ⟨e.id, s, e.components⟩
    (RestoreEntity.loaded env cmd (Serialize env e) w)
    (loaded_entities env cmd _ w _ hroot)
  have hfst := reintegrate_fst env cmd ⟨e.id, s, e.components⟩
    (RestoreEntity.loaded env cmd (Serialize env e) w)
  have hser : Serialize env (RestoreEntity.reintegrate env cmd ⟨e.id, s, e.components⟩
      (RestoreEntity.loaded env cmd (Serialize env e) w)).1 = Serialize env e :=
    Serialize_congr env _ e hfst.1 hfst.2
  refine ⟨_, _, hdone, ?_, hser, ?_⟩
  · simp only [FindEntity, SetSelectedEntities, UpdateCache_entities]
    exact hsync
  · have hlive : (RestoreEntity.reintegrate env cmd ⟨e.id, s, e.components⟩
        (RestoreEntity.loaded env cmd (Serialize env e) w)).2.entities cmd.m_entityID =
        some (RestoreEntity.reintegrate env cmd ⟨e.id, s, e.components⟩
          (RestoreEntity.loaded env cmd (Serialize env e) w)).1 := by
      rw [hid]
      exact hsync
    have := UpdateCache_Retrieve env cmd.m_entityID _ _ hlive
    rw [hser] at this
    simpa [Retrieve, SetSelectedEntities, hid] using this

/-- A redo-side `Capture` returns when the cache instance and the serialize context
exist, the stream reports no error, and a slice-owned entity has a root slice to ask. -/
theorem Capture_redo_returns (env : Env) (cmd : EntityStateCommand) (e : Entity)
    (w : World) (huc : env.undoCache = true) (hsc : env.serializeContext = true)
    (hwc : env.writeClass e = true) (hfin : env.finalize e = true)
    (hslice : GetOwningSlice w e.id = true → (GetEditorRootSlice w).isSome = true) :
    ∃ cmd1, EntityStateCommand.Capture env cmd e false w = Outcome.done cmd1 w := by
  obtain ⟨cmd1, hfin1⟩ := sliceInfo_returns
    { Capture.recorded cmd e w with m_redoState := Serialize env e } w hslice
  refine ⟨cmd1, ?_⟩
  unfold EntityStateCommand.Capture
  simp only [huc, hsc, Bool.false_and, Bool.not_true, Bool.false_eq_true, if_false,
    Capture.redoSide, hwc, hfin]
  exact hfin1

/-- What a completed redo-side `Capture` has done. -/
theorem Capture_redo_done (env : Env) (cmd cmd1 : EntityStateCommand) (e : Entity)
    (w w1 : World)
    (h : EntityStateCommand.Capture env cmd e false w = Outcome.done cmd1 w1) :
    env.undoCache = true ∧ env.serializeContext = true ∧ w1 = w ∧
    cmd1.m_redoState = Serialize env e ∧ cmd1.m_entityID = e.id := by
  obtain ⟨huc, hsc, _, cmd3, w3, hstage, hslice⟩ :=
    Capture_done_inv env cmd cmd1 e false w w1 h
  simp only [Bool.false_eq_true, if_false] at hstage
  obtain ⟨h1, h2, _, h4⟩ := redoSide_done env _ cmd3 e w w3 hstage
  obtain ⟨hw, _, hr, hi, _⟩ := sliceInfo_done cmd3 cmd1 w3 w1 hslice
  refine ⟨huc, hsc, hw.trans h1, hr.trans h2, ?_⟩
  rw [hi, h4]
  rfl

/-- C3. Round trip: with an engine whose Deserialize undoes Serialize, a
`Capture(E, false)` that returns has put the serialization of `E` into `m_redoState`, and
every `RestoreEntity(m_redoState)` made afterwards, in whatever world (whatever entity is
or is not live under the identity at that time), leaves under the identity of `E` a live
entity whose serialization is byte-equal to the serialization of `E` at capture time.
That restore returns whenever the serialization of `E` is not empty, and the capture
returns whenever the engine and the slice subsystem report no error. -/
theorem capture_restore_round_trip (env : Env) (hrt : RoundTrips env)
    (cmd : EntityStateCommand) (E : Entity) (w0 : World) :
    (∀ cmd1 w1, EntityStateCommand.Capture env cmd E false w0 = Outcome.done cmd1 w1 →
      cmd1.m_redoState = Serialize env E ∧
      (∀ w w', EntityStateCommand.RestoreEntity env cmd1 cmd1.m_redoState w =
          Outcome.done () w' →
        ∃ live, FindEntity w' E.id = some live ∧ Serialize env live = Serialize env E) ∧
      (Serialize env E ≠ [] →
        ∀ w, ∃ w', EntityStateCommand.RestoreEntity env cmd1 cmd1.m_redoState w =
          Outcome.done () w')) ∧
    (env.undoCache = true → env.serializeContext = true → env.writeClass E = true →
      env.finalize E = true →
      (GetOwningSlice w0 E.id = true → (GetEditorRootSlice w0).isSome = true) →
      ∃ cmd1, EntityStateCommand.Capture env cmd E false w0 = Outcome.done cmd1 w0) := by
  refine ⟨?_, Capture_redo_returns env cmd E w0⟩
  intro cmd1 w1 hcap
  obtain ⟨huc, hsc, _, hredo, hid⟩ := Capture_redo_done env cmd cmd1 E w0 w1 hcap
  refine ⟨hredo, ?_, ?_⟩
  · intro w w' hres
    have hne : Serialize env E ≠ [] := by
      have := (RestoreEntity_done_inv env cmd1 _ w w' hres).1
      rwa [hredo] at this
    obtain ⟨w2, live, hdone, hlive, hser, _⟩ :=
      RestoreEntity_round_trip env hrt cmd1 E hid hne hsc huc w
    rw [hredo, hdone] at hres
    simp only [Outcome.done.injEq, true_and] at hres
    subst hres
    exact ⟨live, hlive, hser⟩
  · intro hne w
    obtain ⟨w2, live, hdone, _⟩ :=
      RestoreEntity_round_trip env hrt cmd1 E hid hne hsc huc w
    rw [hredo]
    exact ⟨w2, hdone⟩

/-- C3, at a concrete entity: the entity 1 is captured on the redo side; restoring the
snapshot in the empty world, and in a world where another version of the entity 1 is
live, leaves a live entity with the captured serialization. -/
theorem capture_restore_round_trip_witness :
    RoundTrips demoEnv ∧
    EntityStateCommand.Capture demoEnv EntityStateCommand.new demoEntity false demoWorld =
      Outcome.done demoCommand demoWorld ∧
    EntityStateCommand.RestoreEntity demoEnv demoCommand demoCommand.m_redoState emptyWorld =
      Outcome.done () demoRestored ∧
    Serialize demoEnv demoEntity = [1, 1, 7, 8] ∧
    (∃ live, FindEntity demoRestored 1 = some live ∧
      Serialize demoEnv live = Serialize demoEnv demoEntity) ∧
    (∃ w', EntityStateCommand.RestoreEntity demoEnv demoCommand demoCommand.m_redoState
      (editedWorld 9) = Outcome.done () w') :=
  ⟨demoEnv_RoundTrips, rfl, rfl, rfl,
    ((capture_restore_round_trip demoEnv demoEnv_RoundTrips EntityStateCommand.new demoEntity
      demoWorld).1 demoCommand demoWorld rfl).2.1 emptyWorld demoRestored rfl,
    ((capture_restore_round_trip demoEnv demoEnv_RoundTrips EntityStateCommand.new demoEntity
      demoWorld).1 demoCommand demoWorld rfl).2.2 (by decide) (editedWorld 9)⟩

/-! ## Delete capture -/

/-- C9. Delete capture freshness: for an entity `E` live under its identity and any
prior cache content, an `EntityDeleteCommand::Capture(E)` that returns leaves both the
cache entry for the identity and `m_undoState` equal to a fresh serialization of `E` as
it is at capture time; so, with an engine whose Deserialize undoes Serialize, every later
`Undo()` returns and leaves a live entity with that serialization.  The capture returns on
a command without undo state whenever the serialization of `E` is not empty. -/
theorem delete_capture_fresh (env : Env) (cmd : EntityStateCommand) (E : Entity)
    (w : World) (hlive : FindEntity w E.id = some E) :
    (∀ cmd1 w1, EntityDeleteCommand.Capture env cmd E w = Outcome.done cmd1 w1 →
      Retrieve w1 E.id = Serialize env E ∧ cmd1.m_undoState = Serialize env E ∧
      (RoundTrips env → ∀ w2, ∃ w3 live,
        EntityDeleteCommand.Undo env cmd1 w2 = Outcome.done () w3 ∧
        FindEntity w3 E.id = some live ∧ Serialize env live = Serialize env E)) ∧
    (cmd.m_undoState = [] → env.undoCache = true → env.serializeContext = true →
      (GetOwningSlice w E.id = true → (GetEditorRootSlice w).isSome = true) →
      Serialize env E ≠ [] →
      ∃ cmd1 w1, EntityDeleteCommand.Capture env cmd E w = Outcome.done cmd1 w1) := by
  have hfresh : Retrieve (UpdateCache env E.id w) E.id = Serialize env E :=
    UpdateCache_Retrieve env E.id w E hlive
  have hlive1 : (UpdateCache env E.id w).entities E.id = some E := by
    rw [UpdateCache_entities]
    exact hlive
  constructor
  · intro cmd1 w1 h
    unfold EntityDeleteCommand.Capture at h
    by_cases huc : env.undoCache = true
    swap
    · simp [huc] at h
    simp only [huc, Bool.not_true, Bool.false_eq_true, if_false] at h
    obtain ⟨_, hsc, _, _⟩ := Capture_done_inv env cmd cmd1 E true _ w1 h
    obtain ⟨_, h1, h2, h3, _, hid⟩ := Capture_undo_done env cmd cmd1 E _ w1 h
    have hboth : Retrieve w1 E.id = Serialize env E ∧ cmd1.m_undoState = Serialize env E := by
      by_cases h0 : Retrieve (UpdateCache env E.id w) E.id = []
      · obtain ⟨hw1, hu⟩ := h2 h0
        have : Retrieve w1 E.id = Serialize env E := by
          rw [hw1]
          exact UpdateCache_Retrieve env E.id _ E hlive1
        exact ⟨this, hu.trans this⟩
      · obtain ⟨hu, hw1⟩ := h1 h0
        rw [hw1]
        exact ⟨hfresh, hu.trans hfresh⟩
    refine ⟨hboth.1, hboth.2, ?_⟩
    intro hrt w2
    have hne : Serialize env E ≠ [] := by
      rw [← hboth.2]
      exact h3
    obtain ⟨w3, live, hdone, hl, hser, _⟩ :=
      RestoreEntity_round_trip env hrt cmd1 E hid hne hsc huc w2
    refine ⟨w3, live, ?_, hl, hser⟩
    unfold EntityDeleteCommand.Undo
    rw [hboth.2]
    exact hdone
  · intro hcmd huc hsc hslice hne
    unfold EntityDeleteCommand.Capture
    simp only [huc, Bool.not_true, Bool.false_eq_true, if_false]
    apply Capture_undo_returns env cmd E _ hcmd huc hsc
    · unfold UpdateCache
      split <;> exact hslice
    · left
      rw [hfresh]
      exact hne

/-- C9, at a concrete entity: the entity 1 is live with the components 7 and 8 while
the cache holds a stale entry for it; after the delete capture the entry and the undo
state are the fresh serialization, and undoing in the empty world recreates the entity. -/
theorem delete_capture_fresh_witness :
    FindEntity { demoWorld with cache := fun _ => some [1, 1, 0] } demoEntity.id =
      some demoEntity ∧
    Retrieve { demoWorld with cache := fun _ => some [1, 1, 0] } 1 = [1, 1, 0] ∧
    Serialize demoEnv demoEntity = [1, 1, 7, 8] ∧
    EntityDeleteCommand.Capture demoEnv EntityStateCommand.new demoEntity
        { demoWorld with cache := fun _ => some [1, 1, 0] } =
      Outcome.done demoDeleteCommand
        (UpdateCache demoEnv 1 { demoWorld with cache := fun _ => some [1, 1, 0] }) ∧
    (Retrieve (UpdateCache demoEnv 1 { demoWorld with cache := fun _ => some [1, 1, 0] })
        demoEntity.id = Serialize demoEnv demoEntity ∧
      demoDeleteCommand.m_undoState = Serialize demoEnv demoEntity) ∧
    (∃ w3 live, EntityDeleteCommand.Undo demoEnv demoDeleteCommand emptyWorld =
        Outcome.done () w3 ∧
      FindEntity w3 demoEntity.id = some live ∧
      Serialize demoEnv live = Serialize demoEnv demoEntity) :=
  ⟨rfl, rfl, rfl, rfl,
    ⟨((delete_capture_fresh demoEnv EntityStateCommand.new demoEntity
        { demoWorld with cache := fun _ => some [1, 1, 0] } rfl).1 demoDeleteCommand
        (UpdateCache demoEnv 1 { demoWorld with cache := fun _ => some [1, 1, 0] }) rfl).1,
     ((delete_capture_fresh demoEnv EntityStateCommand.new demoEntity
        { demoWorld with cache := fun _ => some [1, 1, 0] } rfl).1 demoDeleteCommand
        (UpdateCache demoEnv 1 { demoWorld with cache := fun _ => some [1, 1, 0] }) rfl).2.1⟩,
    ((delete_capture_fresh demoEnv EntityStateCommand.new demoEntity
        { demoWorld with cache := fun _ => some [1, 1, 0] } rfl).1 demoDeleteCommand
        (UpdateCache demoEnv 1 { demoWorld with cache := fun _ => some [1, 1, 0] }) rfl).2.2
      demoEnv_RoundTrips emptyWorld⟩

/-! ## Undo then redo -/

/-- C4, as stated, fails.  The modify command of the edit from 7 to 8 has both sides
captured (undo side from the cache before the edit, redo side after it), and the engine's
Deserialize undoes Serialize.  The entity 1 is then given the value 9 without a command.
`Undo()` followed by `Redo()` returns and leaves the entity 1 with the value 8 of the redo
snapshot, whose serialization differs from that of the entity live before `Undo()`. -/
theorem undo_redo_symmetry_counterexample :
    RoundTrips demoEnv ∧
    EntityStateCommand.Capture demoEnv EntityStateCommand.new (editedEntity 7) true
        (UpdateCache demoEnv 1 (editedWorld 7)) =
      Outcome.done { modifyCommand with m_redoState := [] }
        (UpdateCache demoEnv 1 (editedWorld 7)) ∧
    EntityStateCommand.Capture demoEnv { modifyCommand with m_redoState := [] }
        (editedEntity 8) false (editedWorld 8) =
      Outcome.done modifyCommand (editedWorld 8) ∧
    FindEntity (editedWorld 9) modifyCommand.m_entityID = some (editedEntity 9) ∧
    EntityStateCommand.Undo demoEnv modifyCommand (editedWorld 9) =
      Outcome.done () modifyUndone ∧
    EntityStateCommand.Redo demoEnv modifyCommand modifyUndone =
      Outcome.done () modifyRedone ∧
    FindEntity modifyRedone modifyCommand.m_entityID = some (editedEntity 8) ∧
    Serialize demoEnv (editedEntity 8) ≠ Serialize demoEnv (editedEntity 9) :=
  ⟨demoEnv_RoundTrips, rfl, rfl, rfl, rfl, rfl, rfl, by decide⟩

/-- C4, amended.  For a command whose redo side was captured from the entity `eR` (after
its undo side was captured), with an engine whose Deserialize undoes Serialize: when
`Undo()` and then `Redo()` return, the entity live under the command's identity has the
serialization held in `m_redoState`, that of `eR` at redo-capture time.  It equals the
serialization of the entity that was live under the identity before `Undo()` whenever
that entity's serialization was `m_redoState`. -/
theorem undo_redo_restores_redo_state (env : Env) (hrt : RoundTrips env)
    (cmd0 cmdU cmdR : EntityStateCommand) (eU eR : Entity) (wU wU1 wR wR1 : World)
    (hU : EntityStateCommand.Capture env cmd0 eU true wU = Outcome.done cmdU wU1)
    (hR : EntityStateCommand.Capture env cmdU eR false wR = Outcome.done cmdR wR1)
    (w w1 w2 : World)
    (h1 : EntityStateCommand.Undo env cmdR w = Outcome.done () w1)
    (h2 : EntityStateCommand.Redo env cmdR w1 = Outcome.done () w2) :
    cmdR.m_undoState = cmdU.m_undoState ∧ cmdR.m_undoState ≠ [] ∧
    cmdR.m_redoState = Serialize env eR ∧
    ∃ live, FindEntity w2 cmdR.m_entityID = some live ∧
      Serialize env live = cmdR.m_redoState ∧
      (∀ before, FindEntity w cmdR.m_entityID = some before →
        Serialize env before = cmdR.m_redoState →
        Serialize env live = Serialize env before) := by
  have _ := h1
  have hundo := Capture_redo_undoState env cmdU cmdR eR wR wR1 hR
  have hne := (Capture_undo_done env cmd0 cmdU eU wU wU1 hU).2.2.2.1
  obtain ⟨huc, hsc, _, hredo, hid⟩ := Capture_redo_done env cmdU cmdR eR wR wR1 hR
  have hne2 : Serialize env eR ≠ [] := by
    have := (RestoreEntity_done_inv env cmdR _ w1 w2 h2).1
    rwa [hredo] at this
  obtain ⟨w3, live, hdone, hlive, hser, _⟩ :=
    RestoreEntity_round_trip env hrt cmdR eR hid hne2 hsc huc w1
  unfold EntityStateCommand.Redo at h2
  rw [hredo, hdone] at h2
  simp only [Outcome.done.injEq, true_and] at h2
  subst h2
  refine ⟨hundo, ?_, hredo, live, ?_, ?_, ?_⟩
  · rw [hundo]
    exact hne
  · rw [hid]
    exact hlive
  · rw [hredo]
    exact hser
  · intro before _ hb
    rw [hb, hredo]
    exact hser

/-- C4 amended, at the concrete command of the edit from 7 to 8, undone and redone where
the entity 1 holds the value 9: the entity ends with the serialization of the redo
snapshot. -/
theorem undo_redo_restores_redo_state_witness :
    RoundTrips demoEnv ∧
    EntityStateCommand.Capture demoEnv EntityStateCommand.new (editedEntity 7) true
        (UpdateCache demoEnv 1 (editedWorld 7)) =
      Outcome.done { modifyCommand with m_redoState := [] }
        (UpdateCache demoEnv 1 (editedWorld 7)) ∧
    EntityStateCommand.Capture demoEnv { modifyCommand with m_redoState := [] }
        (editedEntity 8) false (editedWorld 8) =
      Outcome.done modifyCommand (editedWorld 8) ∧
    EntityStateCommand.Undo demoEnv modifyCommand (editedWorld 9) =
      Outcome.done () modifyUndone ∧
    EntityStateCommand.Redo demoEnv modifyCommand modifyUndone =
      Outcome.done () modifyRedone ∧
    modifyCommand.m_redoState = Serialize demoEnv (editedEntity 8) ∧
    (∃ live, FindEntity modifyRedone modifyCommand.m_entityID = some live ∧
      Serialize demoEnv live = modifyCommand.m_redoState ∧
      (∀ before, FindEntity (editedWorld 9) modifyCommand.m_entityID = some before →
        Serialize demoEnv before = modifyCommand.m_redoState →
        Serialize demoEnv live = Serialize demoEnv before)) :=
  ⟨demoEnv_RoundTrips, rfl, rfl, rfl, rfl, rfl,
    (undo_redo_restores_redo_state demoEnv demoEnv_RoundTrips EntityStateCommand.new
      { modifyCommand with m_redoState := [] } modifyCommand (editedEntity 7) (editedEntity 8)
      (UpdateCache demoEnv 1 (editedWorld 7)) (UpdateCache demoEnv 1 (editedWorld 7))
      (editedWorld 8) (editedWorld 8) rfl rfl (editedWorld 9) modifyUndone modifyRedone
      rfl rfl).2.2.2⟩

/-! ## Deserialization failure -/

/-- C8, the failing input.  The buffer loads without error and without a root object, so
`LoadEntity` is never invoked, while an entity is live under the command's identity.  The
local `entity` still holds what `FindEntity` answered, the entity that `DeleteEntity` has
just destroyed; both assertions pass, `RestoreEntity` returns, and it has handed that
entity to `AddEntity`, `Init` and `Activate` (here the destroyed entity ends up
registered again; in the program the pointer dangles). -/
theorem RestoreEntity_stale_entity :
    (demoEnv.loadBlocking [0]).root = none ∧
    (demoEnv.loadBlocking [0]).success = true ∧
    FindEntity staleWorld demoCommand.m_entityID =
      some ⟨1, State.ES_CONSTRUCTED, [7, 8]⟩ ∧
    (EntityStateCommand.RestoreEntity demoEnv demoCommand [0] staleWorld).failure? = none ∧
    (EntityStateCommand.RestoreEntity demoEnv demoCommand [0] staleWorld).world.calls =
      [Call.DeleteEntity 1, Call.LoadBlocking [0],
        Call.AddEntity 5 ⟨1, State.ES_CONSTRUCTED, [7, 8]⟩, Call.Init 1, Call.Activate 1,
        Call.UpdateCache 1, Call.SetSelectedEntities [1]] ∧
    FindEntity (EntityStateCommand.RestoreEntity demoEnv demoCommand [0] staleWorld).world
      demoCommand.m_entityID = some ⟨1, State.ES_ACTIVE, [7, 8]⟩ :=
  ⟨rfl, rfl, rfl, rfl, rfl, rfl⟩

/-- Apart from that input, a load that hands over no entity stops `RestoreEntity`: when
the callback is invoked with an object that is no entity, or the load reports failure, or
no entity was live under the identity before the restore, the outcome is fatal, in the
world as it was at the start or as the deletion and the load left it; in the latter no
entity is registered under the identity, and only `FindAsset`, `DeleteEntity` and
`LoadBlocking` have been called. -/
theorem RestoreEntity_no_entity_fatal (env : Env) (cmd : EntityStateCommand)
    (buffer : Bytes) (w : World)
    (hno : ∀ e, (env.loadBlocking buffer).root ≠ some (some e))
    (hcase : (env.loadBlocking buffer).root = some none ∨
      (env.loadBlocking buffer).success = false ∨ FindEntity w cmd.m_entityID = none) :
    (∃ a, EntityStateCommand.RestoreEntity env cmd buffer w = Outcome.fatal a w ∨
      EntityStateCommand.RestoreEntity env cmd buffer w =
        Outcome.fatal a (RestoreEntity.loaded env cmd buffer w)) ∧
    FindEntity (RestoreEntity.loaded env cmd buffer w) cmd.m_entityID = none ∧
    (RestoreEntity.loaded env cmd buffer w).calls =
      (RestoreEntity.pinAsset cmd w).calls ++
        [Call.DeleteEntity cmd.m_entityID, Call.LoadBlocking buffer] := by
  refine ⟨?_, ?_, loaded_calls env cmd buffer w⟩
  · unfold EntityStateCommand.RestoreEntity
    by_cases hb : buffer = []
    · exact ⟨Assert.undoDataEmpty, Or.inl (by simp [hb])⟩
    by_cases hsc : env.serializeContext = true
    swap
    · exact ⟨Assert.noSerializeContext, Or.inl (by simp [hb, hsc])⟩
    simp only [List.isEmpty_eq_true, hb, hsc, if_false, Bool.not_true, Bool.false_eq_true]
    cases hr : (env.loadBlocking buffer).root with
    | some c =>
      cases c with
      | none =>
        exact ⟨Assert.couldNotCast, Or.inr (by simp [LoadEntity, RestoreEntity.loaded])⟩
      | some e => exact absurd hr (hno e)
    | none =>
      by_cases hok : (env.loadBlocking buffer).success = true
      swap
      · exact ⟨Assert.loadFailed,
          Or.inr (by simp [RestoreEntity.finish, hok, RestoreEntity.loaded])⟩
      · have hfind : FindEntity w cmd.m_entityID = none := by
          rcases hcase with h | h | h
          · rw [hr] at h
            cases h
          · rw [hok] at h
            cases h
          · exact h
        simp only [FindEntity] at hfind
        exact ⟨Assert.noEntity,
          Or.inr (by simp [RestoreEntity.finish, hok, RestoreEntity.loaded, FindEntity,
            hfind])⟩
  · unfold RestoreEntity.loaded LoadBlocking FindEntity
    cases hr : (env.loadBlocking buffer).root with
    | some c =>
      cases c with
      | none => simp [DeleteEntity]
      | some e => exact absurd hr (hno e)
    | none => simp [DeleteEntity]

/-- The fatal cases at three concrete inputs: a root object that is no entity while the
entity 1 is live, a buffer that fails to load while the entity 1 is live, and a stream
without root object when no entity is live under the identity. -/
theorem RestoreEntity_no_entity_fatal_witness :
    (EntityStateCommand.RestoreEntity demoEnv demoCommand [2] staleWorld).failure? =
      some Assert.couldNotCast ∧
    (EntityStateCommand.RestoreEntity demoEnv demoCommand [3] staleWorld).failure? =
      some Assert.loadFailed ∧
    (EntityStateCommand.RestoreEntity demoEnv demoCommand [0] emptyWorld).failure? =
      some Assert.noEntity ∧
    (FindEntity (RestoreEntity.loaded demoEnv demoCommand [2] staleWorld)
        demoCommand.m_entityID = none ∧
      (RestoreEntity.loaded demoEnv demoCommand [2] staleWorld).calls =
        (RestoreEntity.pinAsset demoCommand staleWorld).calls ++
          [Call.DeleteEntity demoCommand.m_entityID, Call.LoadBlocking [2]]) ∧
    (FindEntity (RestoreEntity.loaded demoEnv demoCommand [3] staleWorld)
        demoCommand.m_entityID = none ∧
      (RestoreEntity.loaded demoEnv demoCommand [3] staleWorld).calls =
        (RestoreEntity.pinAsset demoCommand staleWorld).calls ++
          [Call.DeleteEntity demoCommand.m_entityID, Call.LoadBlocking [3]]) ∧
    (FindEntity (RestoreEntity.loaded demoEnv demoCommand [0] emptyWorld)
        demoCommand.m_entityID = none ∧
      (RestoreEntity.loaded demoEnv demoCommand [0] emptyWorld).calls =
        (RestoreEntity.pinAsset demoCommand emptyWorld).calls ++
          [Call.DeleteEntity demoCommand.m_entityID, Call.LoadBlocking [0]]) :=
  ⟨rfl, rfl, rfl,
    (RestoreEntity_no_entity_fatal demoEnv demoCommand [2] staleWorld
      (fun _ h => by cases h) (Or.inl rfl)).2,
    (RestoreEntity_no_entity_fatal demoEnv demoCommand [3] staleWorld
      (fun _ h => by cases h) (Or.inr (Or.inl rfl))).2,
    (RestoreEntity_no_entity_fatal demoEnv demoCommand [0] emptyWorld
      (fun _ h => by cases h) (Or.inr (Or.inr rfl))).2⟩

end AzToolsFramework
